import Mathlib

set_option maxRecDepth 10000

/-
Verification of the archive-generation engine of src/server/archive.py.

Modelling conventions:
* byte strings (Python bytes / bytearray) are `List Nat`, each element a byte value;
* Python bytearray slice assignment `b[i:j] = r` (with 0 <= i <= j) replaces the
  selected range by `r`, clamping the bounds to the buffer length; `r` may have a
  different length, in which case the buffer grows or shrinks.  This resizing
  behaviour is load bearing in `zip_local_file_header`, where a two byte slice is
  assigned a one byte value;
* `int.to_bytes(n, "little")` is modelled by `toBytesLE`, which truncates mod
  256^n; Python instead raises OverflowError when the value does not fit, so
  theorems about numeric fields carry hypotheses keeping the values in range;
* the filesystem is a quiescent association list from path to `FileData`; the
  size reported by `os.stat` is the length of the content that a subsequent read
  returns (the claims assume files exist and are unchanged while streaming);
* `datetime.fromtimestamp` performs a timezone dependent calendar conversion;
  we model the decomposed local time as part of the file metadata, since no
  claim depends on the correspondence between `mtime` and its decomposition.
  The zip header builders pack the decomposition into two 16 bit DOS words
  and call `.to_bytes(2, "little")` on them, which raises OverflowError when
  the date word is negative (local year before 1980, e.g. st_mtime = 0) or
  at least 2^16 (local year after 2107); the `mtimeOk` predicate describes
  the calendar valid decompositions in the representable range 1980..2107,
  on which this embedding agrees with Python (see `dosTime_lt`, `dosDate_lt`),
  and every zip theorem assumes it for the entries it touches;
* the dict of registered files (`self.files`) is an insertion ordered
  association list; `add_file` reproduces the Python dict update semantics
  (replace in place, else append).
-/

/-- models Python bytearray slice assignment buf[i:j] = r for 0 <= i <= j:
bounds are clamped to the buffer length and the selected range is replaced by
r, which may have a different length (the buffer then grows or shrinks). -/
def pySetSlice (buf : List Nat) (i j : Nat) (r : List Nat) : List Nat :=
  buf.take i ++ r ++ buf.drop j

/-- models str.encode of an ASCII string: the list of character code points.
Python raises UnicodeEncodeError on non ASCII input; theorems that inspect the
byte values assume every code point is below 128. -/
def encodeAscii (s : String) : List Nat :=
  s.data.map Char.toNat

/-- models int.to_bytes(len, byteorder="little"): little endian byte list of
fixed length.  Python raises OverflowError when the value does not fit; this
model truncates, and theorems about field values carry in-range hypotheses. -/
def toBytesLE : Nat → Nat → List Nat
  | _, 0 => []
  | v, n + 1 => v % 256 :: toBytesLE (v / 256) n

/-- little endian decoding, inverse of toBytesLE on in-range values. -/
def fromBytesLE (l : List Nat) : Nat :=
  l.foldr (fun b a => a * 256 + b) 0

/-- octal ASCII digits of n, least significant first (empty for 0). -/
def octRev (n : Nat) : List Nat :=
  if h : n = 0 then [] else (48 + n % 8) :: octRev (n / 8)
decreasing_by exact Nat.div_lt_self (Nat.pos_of_ne_zero h) (by omega)

/-- models the oct helper of tar_header_chunk: Python oct(n) without the 0o
prefix, as ASCII bytes (most significant digit first, and "0" for 0). -/
def octStr (n : Nat) : List Nat :=
  if n = 0 then [48] else (octRev n).reverse

/-- models str.rjust(w, fill) on byte lists: pad on the left up to width w. -/
def rjust (w fill : Nat) (l : List Nat) : List Nat :=
  List.replicate (w - l.length) fill ++ l

/-- value of a big endian string of octal ASCII digits. -/
def octVal (l : List Nat) : Nat :=
  l.foldl (fun a b => a * 8 + (b - 48)) 0

/-- splits a list into successive chunks of n elements (the last one shorter),
as the repeated f.read(n) loops of the generators produce them. -/
def chunksOfN (n : Nat) : List α → List (List α)
  | [] => []
  | x :: xs =>
    if n = 0 then []
    else (x :: xs).take n :: chunksOfN n ((x :: xs).drop n)
termination_by l => l.length
decreasing_by
simp only [List.length_drop, List.length_cons]
omega

-- Chunks for crc 32 computation
def CRC32_CHUNK_SIZE : Nat := 65536

-- 4MiB chunks
def CHUNK_SIZE : Nat := 4194304

-- ASCII value for space
def SPACE : Nat := 32

-- ASCII value for zero
def ZERO : Nat := 48

/-- all bits set mask used by the zlib crc32 pre and post conditioning. -/
def M32 : Nat := 0xffffffff

/-- generator polynomial of the reflected CRC-32 used by zlib. -/
def CRC_POLY : Nat := 0xedb88320

/-- one bit step of the reflected CRC-32 algorithm. -/
def crcShift (c : Nat) : Nat :=
  if c % 2 = 1 then (c / 2) ^^^ CRC_POLY else c / 2

/-- processing of one byte by the zlib crc32 state machine. -/
def crcByte (c b : Nat) : Nat :=
  (List.range 8).foldl (fun a _ => crcShift a) (c ^^^ b)

/-- models zlib.crc32(data, v): condition with 0xffffffff, fold the bytes,
condition again. -/
def zlibCrc32 (data : List Nat) (v : Nat) : Nat :=
  (data.foldl crcByte (v ^^^ M32)) ^^^ M32

/-- the read loop of the crc32 utility of src/server/archive.py: fold
zlib.crc32 over successive CRC32_CHUNK_SIZE chunks with the running value as
seed. -/
def crc32Loop (content : List Nat) (hash : Nat) : Nat :=
  if h : content = [] then hash
  else crc32Loop (content.drop CRC32_CHUNK_SIZE)
    (zlibCrc32 (content.take CRC32_CHUNK_SIZE) hash)
termination_by content.length
decreasing_by
simp only [List.length_drop]
have hl : 0 < content.length := List.length_pos.mpr h
simp only [CRC32_CHUNK_SIZE]
omega

/-- models the crc32(filename) utility: the argument is the content of the
file that Python opens and reads. -/
def crc32 (content : List Nat) : Nat :=
  crc32Loop content 0

/-- metadata and content of one file of the quiescent filesystem.  st_size is
content.length; sec..year are the timezone local decomposition of mtime that
datetime.fromtimestamp would produce. -/
structure FileData where
  mode : Nat
  uid : Nat
  gid : Nat
  mtime : Nat
  sec : Nat
  minute : Nat
  hour : Nat
  day : Nat
  month : Nat
  year : Nat
  content : List Nat
deriving DecidableEq

/-- quiescent filesystem: association list from path to file data. -/
abbrev FSys := List (String × FileData)

/-- models tar_header_chunk of src/server/archive.py: the 512 byte tar header
built in a bytearray by successive slice assignments.  The checksum is the
fold of addition over the buffer seeded with 256 (the checksum field read as
eight spaces), written as 6 octal digits at 148..153, then a SPACE at 155. -/
def tar_header_chunk (filename : String) (fd : FileData) : List Nat :=
  let nm := encodeAscii filename
  let b1 := pySetSlice (List.replicate 512 0) 0 filename.length nm
  let b2 := pySetSlice b1 100 107 (rjust 7 48 (octStr fd.mode))
  let b3 := pySetSlice b2 108 115 (rjust 7 48 (octStr fd.uid))
  let b4 := pySetSlice b3 116 123 (rjust 7 48 (octStr fd.gid))
  let b5 := pySetSlice b4 124 135 (rjust 11 48 (octStr fd.content.length))
  let b6 := pySetSlice b5 136 147 (rjust 11 48 (octStr fd.mtime))
  let b7 := b6.set 156 ZERO
  let checksum := rjust 6 48 (octStr (List.foldl (fun x y => x + y) 256 b7))
  let b8 := pySetSlice b7 148 154 checksum
  b8.set 155 SPACE

/-- DOS time word packed from the local decomposition of st_mtime.  Python
packs it with (sec // 2) | (minute << 5) | (hour << 11) and then calls
.to_bytes(2, "little"), which raises OverflowError if the word does not fit
16 bits; on the calendar-valid decompositions described by mtimeOk below the
word always fits, and the zip theorems restrict themselves to that domain. -/
def dosTime (fd : FileData) : Nat :=
  (fd.sec / 2) ||| (fd.minute <<< 5) ||| (fd.hour <<< 11)

/-- DOS date word packed from the local decomposition of st_mtime.  Python
computes day | (month << 5) | ((year - 1980) << 9) over int and then calls
.to_bytes(2, "little"), which raises OverflowError when the word is negative
(local year before 1980, e.g. st_mtime = 0) or at least 2^16 (local year
after 2107), killing the generator mid stream.  This Nat embedding truncates
instead (year - 1980 is truncated subtraction and the encoder wraps), so it
agrees with Python only on decompositions satisfying mtimeOk below, where the
subtraction never truncates and the word fits 16 bits (dosDate_lt); every zip
theorem therefore carries mtimeOk for each entry it touches. -/
def dosDate (fd : FileData) : Nat :=
  fd.day ||| (fd.month <<< 5) ||| ((fd.year - 1980) <<< 9)

/-- models zip_local_file_header of src/server/archive.py.  Note the bytearray
resizing: buffer[4:6] = b"\x0a" replaces two bytes by one and shrinks the
buffer, and the final filename assignment at [30:30+len] grows it back. -/
def zip_local_file_header (filename : String) (fd : FileData) (crc : Nat) : List Nat :=
  let nm := encodeAscii filename
  let b1 := pySetSlice (List.replicate (30 + filename.length) 0) 0 4 [0x50, 0x4b, 0x03, 0x04]
  let b2 := pySetSlice b1 4 6 [0x0a]
  let b3 := pySetSlice b2 10 12 (toBytesLE (dosTime fd) 2)
  let b4 := pySetSlice b3 12 14 (toBytesLE (dosDate fd) 2)
  let b5 := pySetSlice b4 14 18 (toBytesLE crc 4)
  let b6 := pySetSlice b5 18 22 (toBytesLE fd.content.length 4)
  let b7 := pySetSlice b6 22 26 (toBytesLE fd.content.length 4)
  let b8 := pySetSlice b7 26 28 (toBytesLE filename.length 2)
  pySetSlice b8 30 (30 + filename.length) nm

/-- models zip_central_directory_file_header of src/server/archive.py, with the
same bytearray resizing behaviour on the two version fields. -/
def zip_central_directory_file_header (filename : String) (fd : FileData) (crc offset : Nat) :
    List Nat :=
  let nm := encodeAscii filename
  let b1 := pySetSlice (List.replicate (46 + filename.length) 0) 0 4 [0x50, 0x4b, 0x01, 0x02]
  let b2 := pySetSlice b1 4 6 [0x0a]
  let b3 := pySetSlice b2 6 8 [0x0a]
  let b4 := pySetSlice b3 12 14 (toBytesLE (dosTime fd) 2)
  let b5 := pySetSlice b4 14 16 (toBytesLE (dosDate fd) 2)
  let b6 := pySetSlice b5 16 20 (toBytesLE crc 4)
  let b7 := pySetSlice b6 20 24 (toBytesLE fd.content.length 4)
  let b8 := pySetSlice b7 24 28 (toBytesLE fd.content.length 4)
  let b9 := pySetSlice b8 28 30 (toBytesLE filename.length 2)
  let b10 := pySetSlice b9 42 46 (toBytesLE offset 4)
  pySetSlice b10 46 (46 + filename.length) nm

/-- models zip_end_of_central_directory of src/server/archive.py. -/
def zip_end_of_central_directory
    (items_number central_directory_size central_directory_offset : Nat) : List Nat :=
  let b1 := pySetSlice (List.replicate 22 0) 0 4 [0x50, 0x4b, 0x05, 0x06]
  let b2 := pySetSlice b1 8 10 (toBytesLE items_number 2)
  let b3 := pySetSlice b2 10 12 (toBytesLE items_number 2)
  let b4 := pySetSlice b3 12 16 (toBytesLE central_directory_size 4)
  pySetSlice b4 16 20 (toBytesLE central_directory_offset 4)

/-- models ArchiveSender.add_file: the Python dict store
self.files[filename] = filepath on an insertion ordered mapping — replace in
place when the key is present, append otherwise. -/
def ArchiveSender.add_file (files : List (String × String)) (filename filesrc : String) :
    List (String × String) :=
  if files.any (fun e => e.1 == filename)
  then files.map (fun e => if e.1 == filename then (filename, filesrc) else e)
  else files ++ [(filename, filesrc)]

/-- resolves every registered entry against the filesystem, in registration
order: none as soon as one source path is missing. -/
def entriesOf : List (String × String) → FSys → Option (List (String × String × FileData))
  | [], _ => some []
  | (nm, p) :: rest, fs => do
    let fd ← fs.lookup p
    let tail ← entriesOf rest fs
    some ((nm, p, fd) :: tail)

/-- chunks emitted by TarSender.generator for one entry: the 512 byte header,
the payload read in CHUNK_SIZE chunks, then the unconditional zero padding of
512 - size % 512 bytes. -/
def tarEntryChunks (filename : String) (fd : FileData) : List (List Nat) :=
  tar_header_chunk filename fd ::
    (chunksOfN CHUNK_SIZE fd.content ++
      [List.replicate (512 - fd.content.length % 512) 0])

/-- models TarSender.generator: the lazy chunk sequence, none when a source
file cannot be opened. -/
def TarSender.generator : List (String × String) → FSys → Option (List (List Nat))
  | [], _ => some []
  | (nm, p) :: rest, fs => do
    let fd ← fs.lookup p
    let tail ← TarSender.generator rest fs
    some (tarEntryChunks nm fd ++ tail)

/-- models TarSender.content_length: 512 + size + (512 - size % 512) per
entry, none when a stat fails. -/
def TarSender.content_length : List (String × String) → FSys → Option Nat
  | [], _ => some 0
  | (_, p) :: rest, fs => do
    let fd ← fs.lookup p
    let r ← TarSender.content_length rest fs
    some (512 + fd.content.length + (512 - fd.content.length % 512) + r)

/-- first loop of ZipSender.generator: for each entry compute the crc, record
the current byte offset, emit the local header then the payload chunks, and
thread the running byte count.  Returns the emitted chunks, the recorded
(name, path, crc, offset) bookkeeping, and the final byte count. -/
def zipPass1 : List (String × String) → FSys → Nat →
    Option (List (List Nat) × List (String × String × Nat × Nat) × Nat)
  | [], _, c => some ([], [], c)
  | (nm, p) :: rest, fs, c => do
    let fd ← fs.lookup p
    let crc := crc32 fd.content
    let lh := zip_local_file_header nm fd crc
    let r ← zipPass1 rest fs (c + lh.length + fd.content.length)
    some ((lh :: chunksOfN CHUNK_SIZE fd.content) ++ r.1, (nm, p, crc, c) :: r.2.1, r.2.2)

/-- models ZipSender.generator: local headers and payloads, then one central
directory header per entry reusing the recorded crc and offset, then the end
of central directory record. -/
def ZipSender.generator (files : List (String × String)) (fs : FSys) :
    Option (List (List Nat)) := do
  let r ← zipPass1 files fs 0
  let cds ← r.2.1.mapM (fun m => do
    let fd ← fs.lookup m.2.1
    some (zip_central_directory_file_header m.1 fd m.2.2.1 m.2.2.2))
  some (r.1 ++ cds ++
    [zip_end_of_central_directory files.length ((cds.map List.length).sum) r.2.2])

/-- accumulation loop of ZipSender.content_length. -/
def zipLenLoop : List (String × String) → FSys → Option Nat
  | [], _ => some 0
  | (nm, p) :: rest, fs => do
    let fd ← fs.lookup p
    let r ← zipLenLoop rest fs
    some (76 + 2 * nm.length + fd.content.length + r)

/-- models ZipSender.content_length: 76 + 2 * len(name) + size per entry,
plus 22 for the end of central directory record. -/
def ZipSender.content_length (files : List (String × String)) (fs : FSys) : Option Nat :=
  (zipLenLoop files fs).map (fun v => v + 22)

/-- archive path is pure ASCII (Python str.encode("ascii") succeeds). -/
def asciiName (s : String) : Prop := ∀ c ∈ s.data, c.toNat < 128

instance (s : String) : Decidable (asciiName s) := by
  unfold asciiName; infer_instance

/-- content is a list of byte values. -/
def bytesOk (l : List Nat) : Prop := ∀ b ∈ l, b < 256

instance (l : List Nat) : Decidable (bytesOk l) := by
  unfold bytesOk; infer_instance

/-- the tar header fields of this entry fit their fixed octal widths, so the
produced header is exactly 512 bytes (the spec field table prescribes these
widths: 100 byte name, 7 octal digits for mode, uid, gid, 11 for size and
mtime). -/
def tarOk (filename : String) (fd : FileData) : Prop :=
  filename.length ≤ 100 ∧ asciiName filename ∧ fd.mode < 8 ^ 7 ∧ fd.uid < 8 ^ 7 ∧
    fd.gid < 8 ^ 7 ∧ fd.content.length < 8 ^ 11 ∧ fd.mtime < 8 ^ 11

instance (filename : String) (fd : FileData) : Decidable (tarOk filename fd) := by
  unfold tarOk; infer_instance

/-- the sec..year fields are a genuine calendar decomposition of the local
modification time (as datetime.fromtimestamp produces) lying in the DOS
representable range 1980..2107.  Outside this range Python's
(mtime.year - 1980) << 9 is negative or exceeds 16 bits and the
.to_bytes(2, "little") call in both zip header builders raises OverflowError
(realizable: touch -d 1970 gives year 1970), so the zip theorems only speak
about entries satisfying this predicate, on which the Nat embedding of the
two DOS words coincides with the Python computation and fits its field
(dosTime_lt, dosDate_lt). -/
def mtimeOk (fd : FileData) : Prop :=
  fd.sec < 60 ∧ fd.minute < 60 ∧ fd.hour < 24 ∧ 1 ≤ fd.day ∧ fd.day ≤ 31 ∧
    1 ≤ fd.month ∧ fd.month ≤ 12 ∧ 1980 ≤ fd.year ∧ fd.year ≤ 2107

instance (fd : FileData) : Decidable (mtimeOk fd) := by
  unfold mtimeOk; infer_instance

/-- the zip fields of this entry fit the 16 and 32 bit header fields of the
classic non Zip64 format (a non goal of the spec beyond these limits), and
the local mtime decomposition lies in the DOS range where the date and time
words are representable (Python raises OverflowError otherwise). -/
def zipEntryOk (filename : String) (fd : FileData) : Prop :=
  asciiName filename ∧ filename.length < 2 ^ 16 ∧ fd.content.length < 2 ^ 32 ∧
    bytesOk fd.content ∧ mtimeOk fd

instance (filename : String) (fd : FileData) : Decidable (zipEntryOk filename fd) := by
  unfold zipEntryOk; infer_instance

/-- total size of the zip archive as content_length computes it. -/
def zipTotal (ents : List (String × String × FileData)) : Nat :=
  (ents.map (fun e => 76 + 2 * e.1.length + e.2.2.content.length)).sum + 22

/-- whole archive bounds of the classic non Zip64 zip format. -/
def zipOk (ents : List (String × String × FileData)) : Prop :=
  (∀ e ∈ ents, zipEntryOk e.1 e.2.2) ∧ ents.length < 2 ^ 16 ∧ zipTotal ents < 2 ^ 32

instance (ents : List (String × String × FileData)) : Decidable (zipOk ents) := by
  unfold zipOk; infer_instance

/-- value encoded in the checksum field of a produced tar header: 256 (the
checksum field read as eight spaces) plus the sum of the other header bytes
(the name, the five octal fields, and the typeflag byte 48). -/
def tarChecksumVal (filename : String) (fd : FileData) : Nat :=
  256 + (encodeAscii filename).sum + (rjust 7 48 (octStr fd.mode)).sum +
    (rjust 7 48 (octStr fd.uid)).sum + (rjust 7 48 (octStr fd.gid)).sum +
    (rjust 11 48 (octStr fd.content.length)).sum + (rjust 11 48 (octStr fd.mtime)).sum + 48

/-- bytes emitted by ZipSender.generator for one entry in the first region:
the local file header followed by the file content. -/
def zipLocalBlock (nm : String) (fd : FileData) : List Nat :=
  zip_local_file_header nm fd (crc32 fd.content) ++ fd.content

/-- first region of the zip stream: local blocks of all entries in order. -/
def zipLocalRegion (ents : List (String × String × FileData)) : List Nat :=
  (ents.map (fun e => zipLocalBlock e.1 e.2.2)).flatten

/-- byte offset, from the start of the zip stream, at which the local file
header of entry i begins. -/
def zipLocalOffset (ents : List (String × String × FileData)) (i : Nat) : Nat :=
  ((ents.take i).map (fun e => (zipLocalBlock e.1 e.2.2).length)).sum

/-- chunk sequence emitted by the first loop of ZipSender.generator: for each
entry, its local file header then its content in CHUNK_SIZE chunks. -/
def zipChunks (ents : List (String × String × FileData)) : List (List Nat) :=
  (ents.map (fun e =>
    zip_local_file_header e.1 e.2.2 (crc32 e.2.2.content) ::
      chunksOfN CHUNK_SIZE e.2.2.content)).flatten

/-- number of bytes emitted by the first loop of ZipSender.generator. -/
def zipStreamLen (ents : List (String × String × FileData)) : Nat :=
  (ents.map (fun e =>
    (zip_local_file_header e.1 e.2.2 (crc32 e.2.2.content)).length +
      e.2.2.content.length)).sum

/-- bookkeeping recorded by the first loop of ZipSender.generator: for each
entry its name, source path, crc and local header offset, threading the
running byte count. -/
def zipMetas : List (String × String × FileData) → Nat → List (String × String × Nat × Nat)
  | [], _ => []
  | e :: rest, c =>
    (e.1, e.2.1, crc32 e.2.2.content, c) ::
      zipMetas rest (c + (zip_local_file_header e.1 e.2.2 (crc32 e.2.2.content)).length +
        e.2.2.content.length)

/-- central directory headers emitted by the second loop of
ZipSender.generator, threading the running local header offset. -/
def zipCds : List (String × String × FileData) → Nat → List (List Nat)
  | [], _ => []
  | e :: rest, c =>
    zip_central_directory_file_header e.1 e.2.2 (crc32 e.2.2.content) c ::
      zipCds rest (c + (zip_local_file_header e.1 e.2.2 (crc32 e.2.2.content)).length +
        e.2.2.content.length)

/-- central directory region of the zip stream. -/
def zipCdRegion (ents : List (String × String × FileData)) : List Nat :=
  (zipCds ents 0).flatten

/- ## Basic lemmas on byte encodings -/

theorem length_encodeAscii (s : String) : (encodeAscii s).length = s.length := by
  unfold encodeAscii
  rw [List.length_map]
  rfl

theorem length_toBytesLE (v n : Nat) : (toBytesLE v n).length = n := by
  induction n generalizing v with
  | zero => rfl
  | succ n ih => simp [toBytesLE, ih]

theorem fromBytesLE_toBytesLE (v n : Nat) (h : v < 256 ^ n) :
    fromBytesLE (toBytesLE v n) = v := by
  induction n generalizing v with
  | zero =>
    have hv : v = 0 := by simpa using h
    subst hv
    rfl
  | succ n ih =>
    have hdiv : v / 256 < 256 ^ n := by
      rw [Nat.div_lt_iff_lt_mul (by omega)]
      calc v < 256 ^ (n + 1) := h
        _ = 256 ^ n * 256 := by ring
    simp only [toBytesLE, fromBytesLE, List.foldr_cons]
    have := ih (v / 256) hdiv
    simp only [fromBytesLE] at this
    rw [this]
    omega

theorem pySetSlice_exact {pre mid post r : List Nat} {i j : Nat}
    (hi : i = pre.length) (hj : j = pre.length + mid.length) :
    pySetSlice (pre ++ mid ++ post) i j r = pre ++ r ++ post := by
  subst hi hj
  unfold pySetSlice
  have h1 : (pre ++ mid ++ post).take pre.length = pre := by
    rw [List.append_assoc]
    exact List.take_left pre (mid ++ post)
  have h2 : (pre ++ mid ++ post).drop (pre.length + mid.length) = post :=
    List.drop_left' (by simp)
  rw [h1, h2]

theorem pySetSlice_end {pre rest r : List Nat} {i j : Nat}
    (hi : i = pre.length) (hj : pre.length + rest.length ≤ j) :
    pySetSlice (pre ++ rest) i j r = pre ++ r := by
  subst hi
  unfold pySetSlice
  have h1 : (pre ++ rest).take pre.length = pre := List.take_left pre rest
  have h2 : (pre ++ rest).drop j = [] := List.drop_eq_nil_of_le (by simp; omega)
  rw [h1, h2, List.append_nil]

/-- on a calendar valid decomposition in the DOS range, the packed time word
fits 16 bits, so Python's .to_bytes(2, "little") on it cannot raise. -/
theorem dosTime_lt (fd : FileData) (h : mtimeOk fd) : dosTime fd < 2 ^ 16 := by
  obtain ⟨hs, hm, hh, -, -, -, -, -, -⟩ := h
  have e1 : fd.minute <<< 5 = fd.minute * 32 := by rw [Nat.shiftLeft_eq]
  have e2 : fd.hour <<< 11 = fd.hour * 2048 := by rw [Nat.shiftLeft_eq]
  unfold dosTime
  have h1 : fd.sec / 2 < 2 ^ 16 := by omega
  have h2 : fd.minute <<< 5 < 2 ^ 16 := by rw [e1]; omega
  have h3 : fd.hour <<< 11 < 2 ^ 16 := by rw [e2]; omega
  exact Nat.or_lt_two_pow (Nat.or_lt_two_pow h1 h2) h3

/-- on a calendar valid decomposition in the DOS range 1980..2107, the packed
date word fits 16 bits (and year - 1980 does not truncate, so the Nat value
is Python's int value), so Python's .to_bytes(2, "little") cannot raise. -/
theorem dosDate_lt (fd : FileData) (h : mtimeOk fd) : dosDate fd < 2 ^ 16 := by
  obtain ⟨-, -, -, -, hd, -, hmo, hy, hy2⟩ := h
  have e1 : fd.month <<< 5 = fd.month * 32 := by rw [Nat.shiftLeft_eq]
  have e2 : (fd.year - 1980) <<< 9 = (fd.year - 1980) * 512 := by
    rw [Nat.shiftLeft_eq]
  unfold dosDate
  have h1 : fd.day < 2 ^ 16 := by omega
  have h2 : fd.month <<< 5 < 2 ^ 16 := by rw [e1]; omega
  have h3 : (fd.year - 1980) <<< 9 < 2 ^ 16 := by rw [e2]; omega
  exact Nat.or_lt_two_pow (Nat.or_lt_two_pow h1 h2) h3

/- ## Octal digit lemmas -/

theorem octRev_foldr (n : Nat) :
    (octRev n).foldr (fun b a => a * 8 + (b - 48)) 0 = n := by
  induction n using Nat.strong_induction_on with
  | _ n ih =>
    unfold octRev
    split
    · simp [*]
    · rename_i h
      simp only [List.foldr_cons]
      rw [ih (n / 8) (Nat.div_lt_self (Nat.pos_of_ne_zero h) (by omega))]
      omega

theorem octVal_octStr (n : Nat) : octVal (octStr n) = n := by
  unfold octStr
  split
  · simp [octVal, *]
  · unfold octVal
    rw [List.foldl_reverse]
    exact octRev_foldr n

theorem octVal_replicate_zero_append (k : Nat) (l : List Nat) :
    octVal (List.replicate k 48 ++ l) = octVal l := by
  unfold octVal
  rw [List.foldl_append]
  congr 1
  induction k with
  | zero => rfl
  | succ k ih => simpa [List.replicate_succ] using ih

theorem octVal_rjust_octStr (w n : Nat) : octVal (rjust w 48 (octStr n)) = n := by
  unfold rjust
  rw [octVal_replicate_zero_append, octVal_octStr]

theorem octRev_length_le (n k : Nat) (h : n < 8 ^ k) : (octRev n).length ≤ k := by
  induction n using Nat.strong_induction_on generalizing k with
  | _ n ih =>
    unfold octRev
    split
    · simp
    · rename_i hn
      have hk : k ≠ 0 := by
        rintro rfl
        simp at h
        omega
      obtain ⟨k, rfl⟩ : ∃ m, k = m + 1 := ⟨k - 1, by omega⟩
      have hdiv : n / 8 < 8 ^ k := by
        rw [Nat.div_lt_iff_lt_mul (by omega)]
        calc n < 8 ^ (k + 1) := h
          _ = 8 ^ k * 8 := by ring
      have := ih (n / 8) (Nat.div_lt_self (Nat.pos_of_ne_zero hn) (by omega)) k hdiv
      simp only [List.length_cons]
      omega

theorem octStr_length_le (n k : Nat) (hk : 1 ≤ k) (h : n < 8 ^ k) :
    (octStr n).length ≤ k := by
  unfold octStr
  split
  · simpa
  · rw [List.length_reverse]
    exact octRev_length_le n k h

theorem mem_octRev_bounds (n : Nat) : ∀ x ∈ octRev n, 48 ≤ x ∧ x ≤ 55 := by
  induction n using Nat.strong_induction_on with
  | _ n ih =>
    unfold octRev
    split
    · simp
    · rename_i hn
      intro x hx
      simp only [List.mem_cons] at hx
      rcases hx with rfl | hx
      · have := Nat.mod_lt n (y := 8) (by omega)
        omega
      · exact ih (n / 8) (Nat.div_lt_self (Nat.pos_of_ne_zero hn) (by omega)) x hx

theorem mem_octStr_bounds (n : Nat) : ∀ x ∈ octStr n, 48 ≤ x ∧ x ≤ 55 := by
  unfold octStr
  split
  · simp
  · intro x hx
    rw [List.mem_reverse] at hx
    exact mem_octRev_bounds n x hx

theorem length_rjust (w f : Nat) (l : List Nat) (h : l.length ≤ w) :
    (rjust w f l).length = w := by
  simp [rjust]
  omega

theorem mem_rjust (w f : Nat) (l : List Nat) :
    ∀ x ∈ rjust w f l, x = f ∨ x ∈ l := by
  intro x hx
  simp only [rjust, List.mem_append, List.mem_replicate] at hx
  rcases hx with ⟨-, rfl⟩ | hx
  · exact Or.inl rfl
  · exact Or.inr hx

/- ## Chunking lemmas -/

theorem flatten_chunksOfN (n : Nat) (hn : n ≠ 0) (l : List α) :
    (chunksOfN n l).flatten = l := by
  have H : ∀ (len : Nat) (l : List α), l.length ≤ len → (chunksOfN n l).flatten = l := by
    intro len
    induction len with
    | zero =>
      intro l hl
      have hnil : l = [] := by cases l <;> simp_all
      subst hnil
      simp [chunksOfN]
    | succ len ih =>
      intro l hl
      match l with
      | [] => simp [chunksOfN]
      | x :: xs =>
        rw [chunksOfN, if_neg hn]
        simp only [List.flatten_cons]
        rw [ih ((x :: xs).drop n) (by simp only [List.length_drop, List.length_cons]; simp at hl; omega)]
        exact List.take_append_drop n (x :: xs)
  exact H l.length l le_rfl

/- ## CRC-32 lemmas -/

theorem zlibCrc32_nil (v : Nat) : zlibCrc32 [] v = v := by
  simp [zlibCrc32, Nat.xor_assoc, Nat.xor_self, Nat.xor_zero]

theorem zlibCrc32_append (a b : List Nat) (v : Nat) :
    zlibCrc32 (a ++ b) v = zlibCrc32 b (zlibCrc32 a v) := by
  simp [zlibCrc32, List.foldl_append, Nat.xor_assoc, Nat.xor_self, Nat.xor_zero]

theorem crc32Loop_eq_zlibCrc32 (content : List Nat) (h0 : Nat) :
    crc32Loop content h0 = zlibCrc32 content h0 := by
  have H : ∀ (len : Nat) (l : List Nat) (h0 : Nat), l.length ≤ len →
      crc32Loop l h0 = zlibCrc32 l h0 := by
    intro len
    induction len with
    | zero =>
      intro l h0 hl
      have hnil : l = [] := by cases l <;> simp_all
      subst hnil
      rw [crc32Loop, dif_pos rfl, zlibCrc32_nil]
    | succ len ih =>
      intro l h0 hl
      by_cases hne : l = []
      · subst hne
        rw [crc32Loop, dif_pos rfl, zlibCrc32_nil]
      · rw [crc32Loop, dif_neg hne]
        rw [ih (l.drop CRC32_CHUNK_SIZE) _ (by
          simp only [List.length_drop]
          have := List.length_pos.mpr hne
          simp only [CRC32_CHUNK_SIZE]
          omega)]
        rw [← zlibCrc32_append, List.take_append_drop]
  exact H content.length content h0 le_rfl

/-- the chunked crc of the repository equals the one shot crc of the whole
content. -/
theorem crc32_eq_whole (content : List Nat) : crc32 content = zlibCrc32 content 0 :=
  crc32Loop_eq_zlibCrc32 content 0

theorem crcShift_lt (c : Nat) (hc : c < 2 ^ 32) : crcShift c < 2 ^ 32 := by
  unfold crcShift
  split
  · exact Nat.xor_lt_two_pow (by omega) (by norm_num [CRC_POLY])
  · omega

theorem crcByte_lt (c b : Nat) (hc : c < 2 ^ 32) (hb : b < 2 ^ 32) :
    crcByte c b < 2 ^ 32 := by
  unfold crcByte
  have H : ∀ (l : List Nat) (s : Nat), s < 2 ^ 32 →
      l.foldl (fun a _ => crcShift a) s < 2 ^ 32 := by
    intro l
    induction l with
    | nil => intro s hs; simpa
    | cons x xs ih =>
      intro s hs
      exact ih (crcShift s) (crcShift_lt s hs)
  exact H (List.range 8) (c ^^^ b) (Nat.xor_lt_two_pow hc hb)

theorem zlibCrc32_lt (data : List Nat) (v : Nat) (hv : v < 2 ^ 32) (hd : bytesOk data) :
    zlibCrc32 data v < 2 ^ 32 := by
  have hM : M32 < 2 ^ 32 := by norm_num [M32]
  have H : ∀ (l : List Nat) (s : Nat), bytesOk l → s < 2 ^ 32 →
      l.foldl crcByte s < 2 ^ 32 := by
    intro l
    induction l with
    | nil => intro s _ hs; simpa
    | cons x xs ih =>
      intro s hb hs
      refine ih (crcByte s x) (fun b hbm => hb b (List.mem_cons_of_mem x hbm)) ?_
      exact crcByte_lt s x hs (lt_trans (hb x (List.mem_cons_self x xs)) (by norm_num))
  exact Nat.xor_lt_two_pow (H data (v ^^^ M32) hd (Nat.xor_lt_two_pow hv hM)) hM

theorem crc32_lt (content : List Nat) (h : bytesOk content) : crc32 content < 2 ^ 32 := by
  rw [crc32_eq_whole]
  exact zlibCrc32_lt content 0 (by norm_num) h

/- ## Buffer construction workhorse lemmas -/

theorem pySetSlice_gap (front : List Nat) (k a b c : Nat) (r : List Nat) (i j : Nat)
    (hk : k = a + b + c) (hi : i = front.length + a) (hj : j = front.length + a + b) :
    pySetSlice (front ++ List.replicate k 0) i j r =
      front ++ List.replicate a 0 ++ r ++ List.replicate c 0 := by
  subst hk
  have hsplit : front ++ List.replicate (a + b + c) 0 =
      (front ++ List.replicate a 0) ++ List.replicate b 0 ++ List.replicate c 0 := by
    simp [List.append_assoc, List.append_replicate_replicate]
  rw [hsplit, pySetSlice_exact (by simp [hi]) (by simp [hj])]

theorem pySetSlice_adj (front : List Nat) (k b c : Nat) (r : List Nat) (i j : Nat)
    (hk : k = b + c) (hi : i = front.length) (hj : j = front.length + b) :
    pySetSlice (front ++ List.replicate k 0) i j r = front ++ r ++ List.replicate c 0 := by
  subst hk
  have hsplit : front ++ List.replicate (b + c) 0 =
      front ++ List.replicate b 0 ++ List.replicate c 0 := by
    simp [List.append_assoc, List.append_replicate_replicate]
  rw [hsplit, pySetSlice_exact (by simp [hi]) (by simp [hj])]

theorem pySetSlice_first (k b c : Nat) (r : List Nat) (j : Nat)
    (hk : k = b + c) (hj : j = b) :
    pySetSlice (List.replicate k 0) 0 j r = r ++ List.replicate c 0 := by
  have h0 : (List.replicate k (0 : Nat)) = [] ++ List.replicate k 0 := by simp
  rw [h0, pySetSlice_adj [] k b c r 0 j hk (by simp) (by simp [hj])]
  simp

theorem pySetSlice_gap_end (front : List Nat) (k a : Nat) (r : List Nat) (i j : Nat)
    (hk : a ≤ k) (hi : i = front.length + a) (hj : front.length + k ≤ j) :
    pySetSlice (front ++ List.replicate k 0) i j r =
      front ++ List.replicate a 0 ++ r := by
  have hsplit : front ++ List.replicate k 0 =
      (front ++ List.replicate a 0) ++ List.replicate (k - a) 0 := by
    simp [List.append_assoc, List.append_replicate_replicate]
    omega
  rw [hsplit, pySetSlice_end (by simp [hi]) (by simp; omega)]

theorem pySetSlice_append_end (buf r : List Nat) (i j : Nat)
    (hi : i = buf.length) (hj : buf.length ≤ j) :
    pySetSlice buf i j r = buf ++ r := by
  unfold pySetSlice
  rw [hi, List.take_of_length_le le_rfl, List.drop_eq_nil_of_le hj, List.append_nil]

/- ## Header normal forms -/

theorem zip_end_of_central_directory_eq (n s o : Nat) :
    zip_end_of_central_directory n s o =
      [0x50, 0x4b, 0x05, 0x06] ++ List.replicate 4 0 ++ toBytesLE n 2 ++
        toBytesLE n 2 ++ toBytesLE s 4 ++ toBytesLE o 4 ++ List.replicate 2 0 := by
  simp only [zip_end_of_central_directory]
  rw [pySetSlice_first 22 4 18 [0x50, 0x4b, 0x05, 0x06] 4 (by norm_num) rfl]
  rw [pySetSlice_gap [0x50, 0x4b, 0x05, 0x06] 18 4 2 12 (toBytesLE n 2) 8 10
    (by norm_num) (by simp) (by simp)]
  rw [pySetSlice_adj ([0x50, 0x4b, 0x05, 0x06] ++ List.replicate 4 0 ++ toBytesLE n 2)
    12 2 10 (toBytesLE n 2) 10 12 (by norm_num) (by simp [length_toBytesLE])
    (by simp [length_toBytesLE])]
  rw [pySetSlice_adj
    ([0x50, 0x4b, 0x05, 0x06] ++ List.replicate 4 0 ++ toBytesLE n 2 ++ toBytesLE n 2)
    10 4 6 (toBytesLE s 4) 12 16 (by norm_num) (by simp [length_toBytesLE])
    (by simp [length_toBytesLE])]
  rw [pySetSlice_adj
    ([0x50, 0x4b, 0x05, 0x06] ++ List.replicate 4 0 ++ toBytesLE n 2 ++ toBytesLE n 2 ++
      toBytesLE s 4)
    6 4 2 (toBytesLE o 4) 16 20 (by norm_num) (by simp [length_toBytesLE])
    (by simp [length_toBytesLE])]

theorem zip_local_file_header_eq (filename : String) (fd : FileData) (crc : Nat)
    (hL : 1 ≤ filename.length) :
    zip_local_file_header filename fd crc =
      [0x50, 0x4b, 0x03, 0x04] ++ [0x0a] ++ List.replicate 5 0 ++
        toBytesLE (dosTime fd) 2 ++ toBytesLE (dosDate fd) 2 ++ toBytesLE crc 4 ++
        toBytesLE fd.content.length 4 ++ toBytesLE fd.content.length 4 ++
        toBytesLE filename.length 2 ++ List.replicate 2 0 ++ encodeAscii filename := by
  simp only [zip_local_file_header]
  rw [pySetSlice_first (30 + filename.length) 4 (26 + filename.length)
    [0x50, 0x4b, 0x03, 0x04] 4 (by omega) rfl]
  rw [pySetSlice_adj [0x50, 0x4b, 0x03, 0x04] (26 + filename.length) 2 (24 + filename.length)
    [0x0a] 4 6 (by omega) (by simp) (by simp)]
  rw [pySetSlice_gap ([0x50, 0x4b, 0x03, 0x04] ++ [0x0a]) (24 + filename.length) 5 2
    (17 + filename.length) (toBytesLE (dosTime fd) 2) 10 12 (by omega) (by simp) (by simp)]
  rw [pySetSlice_adj
    ([0x50, 0x4b, 0x03, 0x04] ++ [0x0a] ++ List.replicate 5 0 ++ toBytesLE (dosTime fd) 2)
    (17 + filename.length) 2 (15 + filename.length) (toBytesLE (dosDate fd) 2) 12 14
    (by omega) (by simp [length_toBytesLE]) (by simp [length_toBytesLE])]
  rw [pySetSlice_adj
    ([0x50, 0x4b, 0x03, 0x04] ++ [0x0a] ++ List.replicate 5 0 ++ toBytesLE (dosTime fd) 2 ++
      toBytesLE (dosDate fd) 2)
    (15 + filename.length) 4 (11 + filename.length) (toBytesLE crc 4) 14 18
    (by omega) (by simp [length_toBytesLE]) (by simp [length_toBytesLE])]
  rw [pySetSlice_adj
    ([0x50, 0x4b, 0x03, 0x04] ++ [0x0a] ++ List.replicate 5 0 ++ toBytesLE (dosTime fd) 2 ++
      toBytesLE (dosDate fd) 2 ++ toBytesLE crc 4)
    (11 + filename.length) 4 (7 + filename.length) (toBytesLE fd.content.length 4) 18 22
    (by omega) (by simp [length_toBytesLE]) (by simp [length_toBytesLE])]
  rw [pySetSlice_adj
    ([0x50, 0x4b, 0x03, 0x04] ++ [0x0a] ++ List.replicate 5 0 ++ toBytesLE (dosTime fd) 2 ++
      toBytesLE (dosDate fd) 2 ++ toBytesLE crc 4 ++ toBytesLE fd.content.length 4)
    (7 + filename.length) 4 (3 + filename.length) (toBytesLE fd.content.length 4) 22 26
    (by omega) (by simp [length_toBytesLE]) (by simp [length_toBytesLE])]
  rw [pySetSlice_adj
    ([0x50, 0x4b, 0x03, 0x04] ++ [0x0a] ++ List.replicate 5 0 ++ toBytesLE (dosTime fd) 2 ++
      toBytesLE (dosDate fd) 2 ++ toBytesLE crc 4 ++ toBytesLE fd.content.length 4 ++
      toBytesLE fd.content.length 4)
    (3 + filename.length) 2 (1 + filename.length) (toBytesLE filename.length 2) 26 28
    (by omega) (by simp [length_toBytesLE]) (by simp [length_toBytesLE])]
  rw [pySetSlice_gap_end
    ([0x50, 0x4b, 0x03, 0x04] ++ [0x0a] ++ List.replicate 5 0 ++ toBytesLE (dosTime fd) 2 ++
      toBytesLE (dosDate fd) 2 ++ toBytesLE crc 4 ++ toBytesLE fd.content.length 4 ++
      toBytesLE fd.content.length 4 ++ toBytesLE filename.length 2)
    (1 + filename.length) 2 (encodeAscii filename) 30 (30 + filename.length)
    (by omega) (by simp [length_toBytesLE]) (by simp [length_toBytesLE]; omega)]

theorem zip_central_directory_file_header_eq (filename : String) (fd : FileData)
    (crc offset : Nat) :
    zip_central_directory_file_header filename fd crc offset =
      [0x50, 0x4b, 0x01, 0x02] ++ [0x0a] ++ List.replicate 1 0 ++ [0x0a] ++
        List.replicate 5 0 ++ toBytesLE (dosTime fd) 2 ++ toBytesLE (dosDate fd) 2 ++
        toBytesLE crc 4 ++ toBytesLE fd.content.length 4 ++ toBytesLE fd.content.length 4 ++
        toBytesLE filename.length 2 ++ List.replicate 12 0 ++ toBytesLE offset 4 ++
        encodeAscii filename := by
  simp only [zip_central_directory_file_header]
  rw [pySetSlice_first (46 + filename.length) 4 (42 + filename.length)
    [0x50, 0x4b, 0x01, 0x02] 4 (by omega) rfl]
  rw [pySetSlice_adj [0x50, 0x4b, 0x01, 0x02] (42 + filename.length) 2 (40 + filename.length)
    [0x0a] 4 6 (by omega) (by simp) (by simp)]
  rw [pySetSlice_gap ([0x50, 0x4b, 0x01, 0x02] ++ [0x0a]) (40 + filename.length) 1 2
    (37 + filename.length) [0x0a] 6 8 (by omega) (by simp) (by simp)]
  rw [pySetSlice_gap
    ([0x50, 0x4b, 0x01, 0x02] ++ [0x0a] ++ List.replicate 1 0 ++ [0x0a])
    (37 + filename.length) 5 2 (30 + filename.length) (toBytesLE (dosTime fd) 2) 12 14
    (by omega) (by simp) (by simp)]
  rw [pySetSlice_adj
    ([0x50, 0x4b, 0x01, 0x02] ++ [0x0a] ++ List.replicate 1 0 ++ [0x0a] ++
      List.replicate 5 0 ++ toBytesLE (dosTime fd) 2)
    (30 + filename.length) 2 (28 + filename.length) (toBytesLE (dosDate fd) 2) 14 16
    (by omega) (by simp [length_toBytesLE]) (by simp [length_toBytesLE])]
  rw [pySetSlice_adj
    ([0x50, 0x4b, 0x01, 0x02] ++ [0x0a] ++ List.replicate 1 0 ++ [0x0a] ++
      List.replicate 5 0 ++ toBytesLE (dosTime fd) 2 ++ toBytesLE (dosDate fd) 2)
    (28 + filename.length) 4 (24 + filename.length) (toBytesLE crc 4) 16 20
    (by omega) (by simp [length_toBytesLE]) (by simp [length_toBytesLE])]
  rw [pySetSlice_adj
    ([0x50, 0x4b, 0x01, 0x02] ++ [0x0a] ++ List.replicate 1 0 ++ [0x0a] ++
      List.replicate 5 0 ++ toBytesLE (dosTime fd) 2 ++ toBytesLE (dosDate fd) 2 ++
      toBytesLE crc 4)
    (24 + filename.length) 4 (20 + filename.length) (toBytesLE fd.content.length 4) 20 24
    (by omega) (by simp [length_toBytesLE]) (by simp [length_toBytesLE])]
  rw [pySetSlice_adj
    ([0x50, 0x4b, 0x01, 0x02] ++ [0x0a] ++ List.replicate 1 0 ++ [0x0a] ++
      List.replicate 5 0 ++ toBytesLE (dosTime fd) 2 ++ toBytesLE (dosDate fd) 2 ++
      toBytesLE crc 4 ++ toBytesLE fd.content.length 4)
    (20 + filename.length) 4 (16 + filename.length) (toBytesLE fd.content.length 4) 24 28
    (by omega) (by simp [length_toBytesLE]) (by simp [length_toBytesLE])]
  rw [pySetSlice_adj
    ([0x50, 0x4b, 0x01, 0x02] ++ [0x0a] ++ List.replicate 1 0 ++ [0x0a] ++
      List.replicate 5 0 ++ toBytesLE (dosTime fd) 2 ++ toBytesLE (dosDate fd) 2 ++
      toBytesLE crc 4 ++ toBytesLE fd.content.length 4 ++ toBytesLE fd.content.length 4)
    (16 + filename.length) 2 (14 + filename.length) (toBytesLE filename.length 2) 28 30
    (by omega) (by simp [length_toBytesLE]) (by simp [length_toBytesLE])]
  by_cases hL2 : filename.length ≤ 2
  · rw [pySetSlice_gap_end
      ([0x50, 0x4b, 0x01, 0x02] ++ [0x0a] ++ List.replicate 1 0 ++ [0x0a] ++
        List.replicate 5 0 ++ toBytesLE (dosTime fd) 2 ++ toBytesLE (dosDate fd) 2 ++
        toBytesLE crc 4 ++ toBytesLE fd.content.length 4 ++ toBytesLE fd.content.length 4 ++
        toBytesLE filename.length 2)
      (14 + filename.length) 12 (toBytesLE offset 4) 42 46
      (by omega) (by simp [length_toBytesLE]) (by simp [length_toBytesLE]; omega)]
    rw [pySetSlice_append_end
      ([0x50, 0x4b, 0x01, 0x02] ++ [0x0a] ++ List.replicate 1 0 ++ [0x0a] ++
        List.replicate 5 0 ++ toBytesLE (dosTime fd) 2 ++ toBytesLE (dosDate fd) 2 ++
        toBytesLE crc 4 ++ toBytesLE fd.content.length 4 ++ toBytesLE fd.content.length 4 ++
        toBytesLE filename.length 2 ++ List.replicate 12 0 ++ toBytesLE offset 4)
      (encodeAscii filename) 46 (46 + filename.length)
      (by simp [length_toBytesLE]) (by simp [length_toBytesLE])]
  · rw [pySetSlice_gap
      ([0x50, 0x4b, 0x01, 0x02] ++ [0x0a] ++ List.replicate 1 0 ++ [0x0a] ++
        List.replicate 5 0 ++ toBytesLE (dosTime fd) 2 ++ toBytesLE (dosDate fd) 2 ++
        toBytesLE crc 4 ++ toBytesLE fd.content.length 4 ++ toBytesLE fd.content.length 4 ++
        toBytesLE filename.length 2)
      (14 + filename.length) 12 4 (filename.length - 2) (toBytesLE offset 4) 42 46
      (by omega) (by simp [length_toBytesLE]) (by simp [length_toBytesLE])]
    rw [pySetSlice_gap_end
      ([0x50, 0x4b, 0x01, 0x02] ++ [0x0a] ++ List.replicate 1 0 ++ [0x0a] ++
        List.replicate 5 0 ++ toBytesLE (dosTime fd) 2 ++ toBytesLE (dosDate fd) 2 ++
        toBytesLE crc 4 ++ toBytesLE fd.content.length 4 ++ toBytesLE fd.content.length 4 ++
        toBytesLE filename.length 2 ++ List.replicate 12 0 ++ toBytesLE offset 4)
      (filename.length - 2) 0 (encodeAscii filename) 46 (46 + filename.length)
      (by omega) (by simp [length_toBytesLE]) (by simp [length_toBytesLE]; try omega)]
    simp

/- ## Set and slice lemmas with a trailing segment -/

theorem foldl_add_eq_sum (l : List Nat) (n : Nat) :
    List.foldl (fun x y => x + y) n l = n + l.sum := by
  induction l generalizing n with
  | nil => simp
  | cons x xs ih => simp [ih, List.sum_cons]; omega

theorem sum_replicate_zero (n : Nat) : (List.replicate n (0 : Nat)).sum = 0 := by
  induction n with
  | zero => rfl
  | succ n ih => simp [List.replicate_succ, ih]

theorem set_replicate_lt (k a v : Nat) (h : a < k) :
    (List.replicate k (0 : Nat)).set a v =
      List.replicate a 0 ++ (v :: List.replicate (k - a - 1) 0) := by
  induction a generalizing k with
  | zero =>
    obtain ⟨k, rfl⟩ : ∃ m, k = m + 1 := ⟨k - 1, by omega⟩
    simp [List.replicate_succ]
  | succ a ih =>
    obtain ⟨k, rfl⟩ : ∃ m, k = m + 1 := ⟨k - 1, by omega⟩
    have := ih k (by omega)
    simp [List.replicate_succ, this]

theorem set_in_zeros (front : List Nat) (k a v i : Nat)
    (hk : a + 1 ≤ k) (hi : i = front.length + a) :
    (front ++ List.replicate k 0).set i v =
      front ++ List.replicate a 0 ++ (v :: List.replicate (k - a - 1) 0) := by
  rw [List.set_append_right i v (by omega)]
  have ha : i - front.length = a := by omega
  rw [ha, set_replicate_lt k a v (by omega)]
  simp [List.append_assoc]

theorem set_in_zeros_tail (front : List Nat) (k a : Nat) (tail : List Nat) (v i : Nat)
    (hk : a + 1 ≤ k) (hi : i = front.length + a) :
    (front ++ List.replicate k 0 ++ tail).set i v =
      front ++ List.replicate a 0 ++ (v :: (List.replicate (k - a - 1) 0 ++ tail)) := by
  rw [List.set_append_left i v (by simp; omega)]
  rw [set_in_zeros front k a v i hk hi]
  simp [List.append_assoc]

theorem pySetSlice_gap_tail (front : List Nat) (k a b c : Nat) (tail : List Nat)
    (r : List Nat) (i j : Nat)
    (hk : k = a + b + c) (hi : i = front.length + a) (hj : j = front.length + a + b) :
    pySetSlice (front ++ List.replicate k 0 ++ tail) i j r =
      front ++ List.replicate a 0 ++ r ++ List.replicate c 0 ++ tail := by
  subst hk
  have hrepl : front ++ List.replicate (a + b + c) 0 ++ tail =
      (front ++ List.replicate a 0) ++ List.replicate b 0 ++
        (List.replicate c 0 ++ tail) := by
    simp [List.append_assoc, List.append_replicate_replicate]
    rw [← List.append_assoc, List.append_replicate_replicate]
  rw [hrepl, pySetSlice_exact (by simp [hi]) (by simp [hj])]
  simp [List.append_assoc]

/- ## Tar header normal form -/

theorem tar_header_chunk_eq (filename : String) (fd : FileData) (h : tarOk filename fd) :
    tar_header_chunk filename fd =
      encodeAscii filename ++ List.replicate (100 - filename.length) 0 ++
        rjust 7 48 (octStr fd.mode) ++ List.replicate 1 0 ++
        rjust 7 48 (octStr fd.uid) ++ List.replicate 1 0 ++
        rjust 7 48 (octStr fd.gid) ++ List.replicate 1 0 ++
        rjust 11 48 (octStr fd.content.length) ++ List.replicate 1 0 ++
        rjust 11 48 (octStr fd.mtime) ++ List.replicate 1 0 ++
        rjust 6 48 (octStr (tarChecksumVal filename fd)) ++ [0, 32, 48] ++
        List.replicate 355 0 := by
  obtain ⟨hL, hascii, hmode, huid, hgid, hsize, hmtime⟩ := h
  have hnm : (encodeAscii filename).length = filename.length := length_encodeAscii filename
  have hm7 : (rjust 7 48 (octStr fd.mode)).length = 7 :=
    length_rjust 7 48 _ (octStr_length_le _ 7 (by norm_num) hmode)
  have hu7 : (rjust 7 48 (octStr fd.uid)).length = 7 :=
    length_rjust 7 48 _ (octStr_length_le _ 7 (by norm_num) huid)
  have hg7 : (rjust 7 48 (octStr fd.gid)).length = 7 :=
    length_rjust 7 48 _ (octStr_length_le _ 7 (by norm_num) hgid)
  have hs11 : (rjust 11 48 (octStr fd.content.length)).length = 11 :=
    length_rjust 11 48 _ (octStr_length_le _ 11 (by norm_num) hsize)
  have ht11 : (rjust 11 48 (octStr fd.mtime)).length = 11 :=
    length_rjust 11 48 _ (octStr_length_le _ 11 (by norm_num) hmtime)
  simp only [tar_header_chunk, ZERO, SPACE]
  rw [pySetSlice_first 512 filename.length (512 - filename.length) (encodeAscii filename)
    filename.length (by omega) rfl]
  rw [pySetSlice_gap (encodeAscii filename) (512 - filename.length) (100 - filename.length)
    7 405 (rjust 7 48 (octStr fd.mode)) 100 107 (by omega) (by rw [hnm]; omega)
    (by rw [hnm]; omega)]
  rw [pySetSlice_gap
    (encodeAscii filename ++ List.replicate (100 - filename.length) 0 ++
      rjust 7 48 (octStr fd.mode))
    405 1 7 397 (rjust 7 48 (octStr fd.uid)) 108 115
    (by omega) (by simp [hnm, hm7]; omega) (by simp [hnm, hm7]; omega)]
  rw [pySetSlice_gap
    (encodeAscii filename ++ List.replicate (100 - filename.length) 0 ++
      rjust 7 48 (octStr fd.mode) ++ List.replicate 1 0 ++ rjust 7 48 (octStr fd.uid))
    397 1 7 389 (rjust 7 48 (octStr fd.gid)) 116 123
    (by omega) (by simp [hnm, hm7, hu7]; omega) (by simp [hnm, hm7, hu7]; omega)]
  rw [pySetSlice_gap
    (encodeAscii filename ++ List.replicate (100 - filename.length) 0 ++
      rjust 7 48 (octStr fd.mode) ++ List.replicate 1 0 ++ rjust 7 48 (octStr fd.uid) ++
      List.replicate 1 0 ++ rjust 7 48 (octStr fd.gid))
    389 1 11 377 (rjust 11 48 (octStr fd.content.length)) 124 135
    (by omega) (by simp [hnm, hm7, hu7, hg7]; omega) (by simp [hnm, hm7, hu7, hg7]; omega)]
  rw [pySetSlice_gap
    (encodeAscii filename ++ List.replicate (100 - filename.length) 0 ++
      rjust 7 48 (octStr fd.mode) ++ List.replicate 1 0 ++ rjust 7 48 (octStr fd.uid) ++
      List.replicate 1 0 ++ rjust 7 48 (octStr fd.gid) ++ List.replicate 1 0 ++
      rjust 11 48 (octStr fd.content.length))
    377 1 11 365 (rjust 11 48 (octStr fd.mtime)) 136 147
    (by omega) (by simp [hnm, hm7, hu7, hg7, hs11]; omega)
    (by simp [hnm, hm7, hu7, hg7, hs11]; omega)]
  rw [set_in_zeros
    (encodeAscii filename ++ List.replicate (100 - filename.length) 0 ++
      rjust 7 48 (octStr fd.mode) ++ List.replicate 1 0 ++ rjust 7 48 (octStr fd.uid) ++
      List.replicate 1 0 ++ rjust 7 48 (octStr fd.gid) ++ List.replicate 1 0 ++
      rjust 11 48 (octStr fd.content.length) ++ List.replicate 1 0 ++
      rjust 11 48 (octStr fd.mtime))
    365 9 48 156 (by omega) (by simp [hnm, hm7, hu7, hg7, hs11, ht11]; omega)]
  have hsum : List.foldl (fun x y => x + y) 256
      (encodeAscii filename ++ List.replicate (100 - filename.length) 0 ++
        rjust 7 48 (octStr fd.mode) ++ List.replicate 1 0 ++ rjust 7 48 (octStr fd.uid) ++
        List.replicate 1 0 ++ rjust 7 48 (octStr fd.gid) ++ List.replicate 1 0 ++
        rjust 11 48 (octStr fd.content.length) ++ List.replicate 1 0 ++
        rjust 11 48 (octStr fd.mtime) ++ List.replicate 9 0 ++
        (48 :: List.replicate (365 - 9 - 1) 0)) = tarChecksumVal filename fd := by
    rw [foldl_add_eq_sum]
    simp [List.sum_append, sum_replicate_zero, tarChecksumVal]
    omega
  rw [hsum]
  have hoct55 : ∀ w v : Nat, ∀ x ∈ rjust w 48 (octStr v), x ≤ 55 := by
    intro w v x hx
    rcases mem_rjust w 48 (octStr v) x hx with rfl | hx2
    · omega
    · exact (mem_octStr_bounds v x hx2).2
  have hsle : ∀ (l : List Nat) (n : Nat), (∀ x ∈ l, x ≤ n) → l.sum ≤ l.length * n := by
    intro l n hl
    have := List.sum_le_card_nsmul l n hl
    simpa [smul_eq_mul] using this
  have hb1 : (encodeAscii filename).sum ≤ 100 * 127 := by
    have h1 : ∀ x ∈ encodeAscii filename, x ≤ 127 := by
      intro x hx
      simp only [encodeAscii, List.mem_map] at hx
      obtain ⟨c, hc, rfl⟩ := hx
      have := hascii c hc
      omega
    calc (encodeAscii filename).sum ≤ (encodeAscii filename).length * 127 :=
          hsle _ 127 h1
      _ ≤ 100 * 127 := by rw [hnm]; exact Nat.mul_le_mul_right 127 hL
  have hb2 : (rjust 7 48 (octStr fd.mode)).sum ≤ 7 * 55 := by
    have := hsle _ 55 (hoct55 7 fd.mode)
    rwa [hm7] at this
  have hb3 : (rjust 7 48 (octStr fd.uid)).sum ≤ 7 * 55 := by
    have := hsle _ 55 (hoct55 7 fd.uid)
    rwa [hu7] at this
  have hb4 : (rjust 7 48 (octStr fd.gid)).sum ≤ 7 * 55 := by
    have := hsle _ 55 (hoct55 7 fd.gid)
    rwa [hg7] at this
  have hb5 : (rjust 11 48 (octStr fd.content.length)).sum ≤ 11 * 55 := by
    have := hsle _ 55 (hoct55 11 fd.content.length)
    rwa [hs11] at this
  have hb6 : (rjust 11 48 (octStr fd.mtime)).sum ≤ 11 * 55 := by
    have := hsle _ 55 (hoct55 11 fd.mtime)
    rwa [ht11] at this
  have h86 : (8 : Nat) ^ 6 = 262144 := by norm_num
  have hbound : tarChecksumVal filename fd < 8 ^ 6 := by
    unfold tarChecksumVal
    omega
  have hck : (rjust 6 48 (octStr (tarChecksumVal filename fd))).length = 6 :=
    length_rjust 6 48 _ (octStr_length_le _ 6 (by norm_num) hbound)
  rw [pySetSlice_gap_tail
    (encodeAscii filename ++ List.replicate (100 - filename.length) 0 ++
      rjust 7 48 (octStr fd.mode) ++ List.replicate 1 0 ++ rjust 7 48 (octStr fd.uid) ++
      List.replicate 1 0 ++ rjust 7 48 (octStr fd.gid) ++ List.replicate 1 0 ++
      rjust 11 48 (octStr fd.content.length) ++ List.replicate 1 0 ++
      rjust 11 48 (octStr fd.mtime))
    9 1 6 2 (48 :: List.replicate (365 - 9 - 1) 0)
    (rjust 6 48 (octStr (tarChecksumVal filename fd))) 148 154
    (by norm_num) (by simp [hnm, hm7, hu7, hg7, hs11, ht11]; omega)
    (by simp [hnm, hm7, hu7, hg7, hs11, ht11]; omega)]
  rw [set_in_zeros_tail
    (encodeAscii filename ++ List.replicate (100 - filename.length) 0 ++
      rjust 7 48 (octStr fd.mode) ++ List.replicate 1 0 ++ rjust 7 48 (octStr fd.uid) ++
      List.replicate 1 0 ++ rjust 7 48 (octStr fd.gid) ++ List.replicate 1 0 ++
      rjust 11 48 (octStr fd.content.length) ++ List.replicate 1 0 ++
      rjust 11 48 (octStr fd.mtime) ++ List.replicate 1 0 ++
      rjust 6 48 (octStr (tarChecksumVal filename fd)))
    2 1 (48 :: List.replicate (365 - 9 - 1) 0) 32 155
    (by norm_num) (by simp [hnm, hm7, hu7, hg7, hs11, ht11, hck]; omega)]
  simp [List.append_assoc]

/- ## Header length lemmas -/

theorem zip_local_file_header_length (filename : String) (fd : FileData) (crc : Nat)
    (hL : 1 ≤ filename.length) :
    (zip_local_file_header filename fd crc).length = 30 + filename.length := by
  rw [zip_local_file_header_eq filename fd crc hL]
  simp [length_toBytesLE, length_encodeAscii]
  omega

theorem zip_central_directory_file_header_length (filename : String) (fd : FileData)
    (crc offset : Nat) :
    (zip_central_directory_file_header filename fd crc offset).length =
      46 + filename.length := by
  rw [zip_central_directory_file_header_eq filename fd crc offset]
  simp [length_toBytesLE, length_encodeAscii]
  omega

theorem zip_end_of_central_directory_length (n s o : Nat) :
    (zip_end_of_central_directory n s o).length = 22 := by
  rw [zip_end_of_central_directory_eq n s o]
  simp [length_toBytesLE]

theorem tarChecksumVal_lt (filename : String) (fd : FileData) (h : tarOk filename fd) :
    tarChecksumVal filename fd < 8 ^ 6 := by
  obtain ⟨hL, hascii, hmode, huid, hgid, hsize, hmtime⟩ := h
  have hnm : (encodeAscii filename).length = filename.length := length_encodeAscii filename
  have hm7 : (rjust 7 48 (octStr fd.mode)).length = 7 :=
    length_rjust 7 48 _ (octStr_length_le _ 7 (by norm_num) hmode)
  have hu7 : (rjust 7 48 (octStr fd.uid)).length = 7 :=
    length_rjust 7 48 _ (octStr_length_le _ 7 (by norm_num) huid)
  have hg7 : (rjust 7 48 (octStr fd.gid)).length = 7 :=
    length_rjust 7 48 _ (octStr_length_le _ 7 (by norm_num) hgid)
  have hs11 : (rjust 11 48 (octStr fd.content.length)).length = 11 :=
    length_rjust 11 48 _ (octStr_length_le _ 11 (by norm_num) hsize)
  have ht11 : (rjust 11 48 (octStr fd.mtime)).length = 11 :=
    length_rjust 11 48 _ (octStr_length_le _ 11 (by norm_num) hmtime)
  have hoct55 : ∀ w v : Nat, ∀ x ∈ rjust w 48 (octStr v), x ≤ 55 := by
    intro w v x hx
    rcases mem_rjust w 48 (octStr v) x hx with rfl | hx2
    · omega
    · exact (mem_octStr_bounds v x hx2).2
  have hsle : ∀ (l : List Nat) (n : Nat), (∀ x ∈ l, x ≤ n) → l.sum ≤ l.length * n := by
    intro l n hl
    have := List.sum_le_card_nsmul l n hl
    simpa [smul_eq_mul] using this
  have hb1 : (encodeAscii filename).sum ≤ 100 * 127 := by
    have h1 : ∀ x ∈ encodeAscii filename, x ≤ 127 := by
      intro x hx
      simp only [encodeAscii, List.mem_map] at hx
      obtain ⟨c, hc, rfl⟩ := hx
      have := hascii c hc
      omega
    calc (encodeAscii filename).sum ≤ (encodeAscii filename).length * 127 :=
          hsle _ 127 h1
      _ ≤ 100 * 127 := by rw [hnm]; exact Nat.mul_le_mul_right 127 hL
  have hb2 : (rjust 7 48 (octStr fd.mode)).sum ≤ 7 * 55 := by
    have := hsle _ 55 (hoct55 7 fd.mode)
    rwa [hm7] at this
  have hb3 : (rjust 7 48 (octStr fd.uid)).sum ≤ 7 * 55 := by
    have := hsle _ 55 (hoct55 7 fd.uid)
    rwa [hu7] at this
  have hb4 : (rjust 7 48 (octStr fd.gid)).sum ≤ 7 * 55 := by
    have := hsle _ 55 (hoct55 7 fd.gid)
    rwa [hg7] at this
  have hb5 : (rjust 11 48 (octStr fd.content.length)).sum ≤ 11 * 55 := by
    have := hsle _ 55 (hoct55 11 fd.content.length)
    rwa [hs11] at this
  have hb6 : (rjust 11 48 (octStr fd.mtime)).sum ≤ 11 * 55 := by
    have := hsle _ 55 (hoct55 11 fd.mtime)
    rwa [ht11] at this
  have h86 : (8 : Nat) ^ 6 = 262144 := by norm_num
  unfold tarChecksumVal
  omega

theorem tar_header_chunk_length (filename : String) (fd : FileData)
    (h : tarOk filename fd) : (tar_header_chunk filename fd).length = 512 := by
  rw [tar_header_chunk_eq filename fd h]
  obtain ⟨hL, hascii, hmode, huid, hgid, hsize, hmtime⟩ := h
  have hck : (rjust 6 48 (octStr (tarChecksumVal filename fd))).length = 6 :=
    length_rjust 6 48 _ (octStr_length_le _ 6 (by norm_num)
      (tarChecksumVal_lt filename fd ⟨hL, hascii, hmode, huid, hgid, hsize, hmtime⟩))
  simp [length_encodeAscii, hck,
    length_rjust 7 48 _ (octStr_length_le _ 7 (by norm_num) hmode),
    length_rjust 7 48 _ (octStr_length_le _ 7 (by norm_num) huid),
    length_rjust 7 48 _ (octStr_length_le _ 7 (by norm_num) hgid),
    length_rjust 11 48 _ (octStr_length_le _ 11 (by norm_num) hsize),
    length_rjust 11 48 _ (octStr_length_le _ 11 (by norm_num) hmtime)]
  omega

/- ## Generator decomposition lemmas -/

theorem entriesOf_nil (fs : FSys) : entriesOf [] fs = some [] := rfl

theorem entriesOf_length (files : List (String × String)) (fs : FSys) :
    ∀ ents, entriesOf files fs = some ents → ents.length = files.length := by
  induction files with
  | nil => intro ents h; simp [entriesOf] at h; subst h; rfl
  | cons e rest ih =>
    obtain ⟨nm, p⟩ := e
    intro ents h
    simp only [entriesOf, Option.bind_eq_bind, Option.bind_eq_some, Option.some.injEq] at h
    obtain ⟨fd, hfd, tail, htail, hents⟩ := h
    subst hents
    simp [ih tail htail]

theorem entriesOf_lookup (files : List (String × String)) (fs : FSys) :
    ∀ ents, entriesOf files fs = some ents →
      ∀ e ∈ ents, fs.lookup e.2.1 = some e.2.2 := by
  induction files with
  | nil => intro ents h; simp [entriesOf] at h; subst h; simp
  | cons e rest ih =>
    obtain ⟨nm, p⟩ := e
    intro ents h
    simp only [entriesOf, Option.bind_eq_bind, Option.bind_eq_some, Option.some.injEq] at h
    obtain ⟨fd, hfd, tail, htail, hents⟩ := h
    subst hents
    intro x hx
    rcases List.mem_cons.mp hx with rfl | hx2
    · exact hfd
    · exact ih tail htail x hx2

theorem TarSender_generator_eq (files : List (String × String)) (fs : FSys) :
    ∀ ents, entriesOf files fs = some ents →
      TarSender.generator files fs =
        some ((ents.map (fun e => tarEntryChunks e.1 e.2.2)).flatten) := by
  induction files with
  | nil => intro ents h; simp [entriesOf] at h; subst h; simp [TarSender.generator]
  | cons e rest ih =>
    obtain ⟨nm, p⟩ := e
    intro ents h
    simp only [entriesOf, Option.bind_eq_bind, Option.bind_eq_some, Option.some.injEq] at h
    obtain ⟨fd, hfd, tail, htail, hents⟩ := h
    subst hents
    simp [TarSender.generator, hfd, ih tail htail]

theorem TarSender_content_length_eq (files : List (String × String)) (fs : FSys) :
    ∀ ents, entriesOf files fs = some ents →
      TarSender.content_length files fs =
        some ((ents.map (fun e =>
          512 + e.2.2.content.length + (512 - e.2.2.content.length % 512))).sum) := by
  induction files with
  | nil => intro ents h; simp [entriesOf] at h; subst h; simp [TarSender.content_length]
  | cons e rest ih =>
    obtain ⟨nm, p⟩ := e
    intro ents h
    simp only [entriesOf, Option.bind_eq_bind, Option.bind_eq_some, Option.some.injEq] at h
    obtain ⟨fd, hfd, tail, htail, hents⟩ := h
    subst hents
    simp [TarSender.content_length, hfd, ih tail htail]

theorem zipPass1_eq (fs : FSys) : ∀ (files : List (String × String)) (ents) (c : Nat),
    entriesOf files fs = some ents →
      zipPass1 files fs c = some (zipChunks ents, zipMetas ents c, c + zipStreamLen ents) := by
  intro files
  induction files with
  | nil =>
    intro ents c h
    simp [entriesOf] at h
    subst h
    simp [zipPass1, zipChunks, zipMetas, zipStreamLen]
  | cons e rest ih =>
    obtain ⟨nm, p⟩ := e
    intro ents c h
    simp only [entriesOf, Option.bind_eq_bind, Option.bind_eq_some, Option.some.injEq] at h
    obtain ⟨fd, hfd, tail, htail, hents⟩ := h
    subst hents
    simp only [zipPass1, Option.bind_eq_bind, hfd, Option.some_bind]
    rw [ih tail _ htail]
    simp only [Option.some_bind, zipChunks, zipMetas, zipStreamLen, List.map_cons,
      List.flatten_cons, List.sum_cons, Option.some.injEq, Prod.mk.injEq]
    exact ⟨trivial, trivial, by omega⟩

theorem zipCdsM_eq (fs : FSys) : ∀ (ents : List (String × String × FileData)) (c : Nat),
    (∀ e ∈ ents, fs.lookup e.2.1 = some e.2.2) →
      (zipMetas ents c).mapM (fun m => (fs.lookup m.2.1).bind
        (fun fd => some (zip_central_directory_file_header m.1 fd m.2.2.1 m.2.2.2))) =
        some (zipCds ents c) := by
  intro ents
  induction ents with
  | nil => intro c h; simp only [zipMetas, zipCds]; rfl
  | cons e rest ih =>
    intro c h
    have he : fs.lookup e.2.1 = some e.2.2 := h e (List.mem_cons_self e rest)
    simp only [zipMetas, List.mapM_cons, Option.bind_eq_bind, he, Option.some_bind,
      Option.pure_def]
    rw [ih _ (fun x hx => h x (List.mem_cons_of_mem e hx))]
    simp [zipCds]

theorem ZipSender_generator_eq (files : List (String × String)) (fs : FSys)
    (ents : List (String × String × FileData)) (h : entriesOf files fs = some ents) :
    ZipSender.generator files fs =
      some (zipChunks ents ++ zipCds ents 0 ++
        [zip_end_of_central_directory files.length
          (((zipCds ents 0).map List.length).sum) (zipStreamLen ents)]) := by
  simp only [ZipSender.generator, Option.bind_eq_bind]
  rw [zipPass1_eq fs files ents 0 h]
  simp only [Option.some_bind]
  rw [zipCdsM_eq fs ents 0 (entriesOf_lookup files fs ents h)]
  simp

theorem zipLenLoop_eq (fs : FSys) : ∀ (files : List (String × String)) (ents),
    entriesOf files fs = some ents →
      zipLenLoop files fs =
        some ((ents.map (fun e => 76 + 2 * e.1.length + e.2.2.content.length)).sum) := by
  intro files
  induction files with
  | nil => intro ents h; simp [entriesOf] at h; subst h; simp [zipLenLoop]
  | cons e rest ih =>
    obtain ⟨nm, p⟩ := e
    intro ents h
    simp only [entriesOf, Option.bind_eq_bind, Option.bind_eq_some, Option.some.injEq] at h
    obtain ⟨fd, hfd, tail, htail, hents⟩ := h
    subst hents
    simp [zipLenLoop, hfd, ih tail htail]

/- ## Region and offset lemmas -/

theorem tarEntryChunks_flatten (nm : String) (fd : FileData) :
    (tarEntryChunks nm fd).flatten =
      tar_header_chunk nm fd ++ fd.content ++
        List.replicate (512 - fd.content.length % 512) 0 := by
  simp [tarEntryChunks, flatten_chunksOfN CHUNK_SIZE (by norm_num [CHUNK_SIZE]),
    List.append_assoc]

theorem zipChunks_flatten (ents : List (String × String × FileData)) :
    (zipChunks ents).flatten = zipLocalRegion ents := by
  induction ents with
  | nil => rfl
  | cons e rest ih =>
    simp only [zipChunks, zipLocalRegion, List.map_cons, List.flatten_cons] at *
    simp [ih, zipLocalBlock, flatten_chunksOfN CHUNK_SIZE (by norm_num [CHUNK_SIZE]),
      List.append_assoc]

theorem zipLocalRegion_length (ents : List (String × String × FileData)) :
    (zipLocalRegion ents).length = zipStreamLen ents := by
  induction ents with
  | nil => rfl
  | cons e rest ih =>
    have h1 : zipLocalRegion (e :: rest) = zipLocalBlock e.1 e.2.2 ++ zipLocalRegion rest := by
      simp [zipLocalRegion]
    rw [h1, List.length_append, ih]
    simp [zipStreamLen, zipLocalBlock]

theorem zipCds_length (ents : List (String × String × FileData)) :
    ∀ c, (zipCds ents c).length = ents.length := by
  induction ents with
  | nil => intro c; rfl
  | cons e rest ih => intro c; simp [zipCds, ih]

theorem zipCds_map_length_sum (ents : List (String × String × FileData)) :
    ∀ c, ((zipCds ents c).map List.length).sum =
      (ents.map (fun e => 46 + e.1.length)).sum := by
  induction ents with
  | nil => intro c; rfl
  | cons e rest ih =>
    intro c
    simp [zipCds, ih, zip_central_directory_file_header_length]

theorem zipCdRegion_length (ents : List (String × String × FileData)) :
    (zipCdRegion ents).length = (ents.map (fun e => 46 + e.1.length)).sum := by
  rw [zipCdRegion, List.length_flatten, zipCds_map_length_sum ents 0]

theorem zipLocalOffset_zero (ents : List (String × String × FileData)) :
    zipLocalOffset ents 0 = 0 := by
  simp [zipLocalOffset]

theorem zipLocalOffset_succ (e : String × String × FileData)
    (rest : List (String × String × FileData)) (i : Nat) :
    zipLocalOffset (e :: rest) (i + 1) =
      (zipLocalBlock e.1 e.2.2).length + zipLocalOffset rest i := by
  simp [zipLocalOffset, List.take_cons]

theorem zipCds_getD (ents : List (String × String × FileData)) :
    ∀ (c i : Nat) (hi : i < ents.length),
      (zipCds ents c).getD i [] =
        zip_central_directory_file_header (ents[i].1) (ents[i].2.2)
          (crc32 (ents[i].2.2.content)) (c + zipLocalOffset ents i) := by
  induction ents with
  | nil => intro c i hi; simp at hi
  | cons e rest ih =>
    intro c i hi
    match i with
    | 0 => simp [zipCds, zipLocalOffset_zero]
    | Nat.succ i =>
      have hi2 : i < rest.length := by simpa using hi
      simp only [zipCds, List.getD_cons_succ, List.getElem_cons_succ]
      rw [ih _ i hi2, zipLocalOffset_succ]
      congr 1
      simp [zipLocalBlock]
      omega

theorem zipLocalRegion_drop (ents : List (String × String × FileData)) :
    ∀ (i : Nat) (hi : i < ents.length),
      (zipLocalRegion ents).drop (zipLocalOffset ents i) =
        zipLocalBlock (ents[i].1) (ents[i].2.2) ++ zipLocalRegion (ents.drop (i + 1)) := by
  induction ents with
  | nil => intro i hi; simp at hi
  | cons e rest ih =>
    intro i hi
    match i with
    | 0 =>
      simp only [zipLocalOffset_zero, List.drop_zero, List.getElem_cons_zero]
      simp [zipLocalRegion]
    | Nat.succ i =>
      have hi2 : i < rest.length := by simpa using hi
      simp only [zipLocalOffset_succ, List.getElem_cons_succ]
      have hregion : zipLocalRegion (e :: rest) =
          zipLocalBlock e.1 e.2.2 ++ zipLocalRegion rest := by
        simp [zipLocalRegion]
      rw [hregion, List.drop_append, ih i hi2]
      simp

/- ## Field extraction lemmas -/

theorem drop_take_of_eq {l P w t : List Nat} {n k : Nat}
    (h : l = P ++ (w ++ t)) (hP : P.length = n) (hw : w.length = k) :
    (l.drop n).take k = w := by
  subst h
  rw [List.drop_left' hP, List.take_left' hw]

theorem zip_local_header_front (filename : String) (fd : FileData) (crc : Nat)
    (hL : 1 ≤ filename.length) :
    ((zip_local_file_header filename fd crc).take 4 = [0x50, 0x4b, 0x03, 0x04] ∧
      ((zip_local_file_header filename fd crc).drop 4).take 2 = [0x0a, 0]) ∧
    ((zip_local_file_header filename fd crc).drop 6).take 2 = [0, 0] ∧
    ((zip_local_file_header filename fd crc).drop 8).take 2 = [0, 0] := by
  have h10 : zip_local_file_header filename fd crc =
      80 :: 75 :: 3 :: 4 :: 10 :: 0 :: 0 :: 0 :: 0 :: 0 ::
        (toBytesLE (dosTime fd) 2 ++ (toBytesLE (dosDate fd) 2 ++ (toBytesLE crc 4 ++
          (toBytesLE fd.content.length 4 ++ (toBytesLE fd.content.length 4 ++
            (toBytesLE filename.length 2 ++ (0 :: 0 :: encodeAscii filename))))))) := by
    rw [zip_local_file_header_eq filename fd crc hL]
    simp [show List.replicate 5 (0 : Nat) = [0, 0, 0, 0, 0] from rfl,
      show List.replicate 2 (0 : Nat) = [0, 0] from rfl, List.append_assoc]
  rw [h10]
  simp

theorem zip_cd_header_front (filename : String) (fd : FileData) (crc offset : Nat) :
    ((zip_central_directory_file_header filename fd crc offset).take 4 =
        [0x50, 0x4b, 0x01, 0x02] ∧
      ((zip_central_directory_file_header filename fd crc offset).drop 4).take 2 =
        [0x0a, 0]) ∧
    ((zip_central_directory_file_header filename fd crc offset).drop 6).take 2 =
      [0x0a, 0] := by
  have h8 : zip_central_directory_file_header filename fd crc offset =
      80 :: 75 :: 1 :: 2 :: 10 :: 0 :: 10 :: 0 :: 0 :: 0 :: 0 :: 0 ::
        (toBytesLE (dosTime fd) 2 ++ (toBytesLE (dosDate fd) 2 ++ (toBytesLE crc 4 ++
          (toBytesLE fd.content.length 4 ++ (toBytesLE fd.content.length 4 ++
            (toBytesLE filename.length 2 ++ (List.replicate 12 0 ++ (toBytesLE offset 4 ++
              encodeAscii filename)))))))) := by
    rw [zip_central_directory_file_header_eq filename fd crc offset]
    simp [show List.replicate 5 (0 : Nat) = [0, 0, 0, 0, 0] from rfl,
      show List.replicate 1 (0 : Nat) = [0] from rfl, List.append_assoc]
  rw [h8]
  simp

theorem zip_local_header_crc_field (filename : String) (fd : FileData) (crc : Nat)
    (hL : 1 ≤ filename.length) :
    ((zip_local_file_header filename fd crc).drop 14).take 4 = toBytesLE crc 4 := by
  exact @drop_take_of_eq (zip_local_file_header filename fd crc)
    ([0x50, 0x4b, 0x03, 0x04] ++ [0x0a] ++ List.replicate 5 0 ++
      toBytesLE (dosTime fd) 2 ++ toBytesLE (dosDate fd) 2)
    (toBytesLE crc 4)
    (toBytesLE fd.content.length 4 ++ (toBytesLE fd.content.length 4 ++
      (toBytesLE filename.length 2 ++ (List.replicate 2 0 ++ encodeAscii filename))))
    14 4
    (by rw [zip_local_file_header_eq filename fd crc hL]; simp [List.append_assoc])
    (by simp [length_toBytesLE])
    (length_toBytesLE crc 4)

theorem zip_cd_header_crc_field (filename : String) (fd : FileData) (crc offset : Nat) :
    ((zip_central_directory_file_header filename fd crc offset).drop 16).take 4 =
      toBytesLE crc 4 := by
  exact @drop_take_of_eq (zip_central_directory_file_header filename fd crc offset)
    ([0x50, 0x4b, 0x01, 0x02] ++ [0x0a] ++ List.replicate 1 0 ++ [0x0a] ++
      List.replicate 5 0 ++ toBytesLE (dosTime fd) 2 ++ toBytesLE (dosDate fd) 2)
    (toBytesLE crc 4)
    (toBytesLE fd.content.length 4 ++ (toBytesLE fd.content.length 4 ++
      (toBytesLE filename.length 2 ++ (List.replicate 12 0 ++ (toBytesLE offset 4 ++
        encodeAscii filename)))))
    16 4
    (by rw [zip_central_directory_file_header_eq filename fd crc offset]
        simp [List.append_assoc])
    (by simp [length_toBytesLE])
    (length_toBytesLE crc 4)

theorem zip_cd_header_offset_field (filename : String) (fd : FileData) (crc offset : Nat) :
    ((zip_central_directory_file_header filename fd crc offset).drop 42).take 4 =
      toBytesLE offset 4 := by
  exact @drop_take_of_eq (zip_central_directory_file_header filename fd crc offset)
    ([0x50, 0x4b, 0x01, 0x02] ++ [0x0a] ++ List.replicate 1 0 ++ [0x0a] ++
      List.replicate 5 0 ++ toBytesLE (dosTime fd) 2 ++ toBytesLE (dosDate fd) 2 ++
      toBytesLE crc 4 ++ toBytesLE fd.content.length 4 ++ toBytesLE fd.content.length 4 ++
      toBytesLE filename.length 2 ++ List.replicate 12 0)
    (toBytesLE offset 4)
    (encodeAscii filename)
    42 4
    (by rw [zip_central_directory_file_header_eq filename fd crc offset]
        simp [List.append_assoc])
    (by simp [length_toBytesLE])
    (length_toBytesLE offset 4)

theorem zip_eocd_count_field (n s o : Nat) :
    ((zip_end_of_central_directory n s o).drop 8).take 2 = toBytesLE n 2 := by
  exact @drop_take_of_eq (zip_end_of_central_directory n s o)
    ([0x50, 0x4b, 0x05, 0x06] ++ List.replicate 4 0)
    (toBytesLE n 2)
    (toBytesLE n 2 ++ (toBytesLE s 4 ++ (toBytesLE o 4 ++ List.replicate 2 0)))
    8 2
    (by rw [zip_end_of_central_directory_eq n s o]; simp [List.append_assoc])
    (by simp)
    (length_toBytesLE n 2)

theorem zip_eocd_size_field (n s o : Nat) :
    ((zip_end_of_central_directory n s o).drop 12).take 4 = toBytesLE s 4 := by
  exact @drop_take_of_eq (zip_end_of_central_directory n s o)
    ([0x50, 0x4b, 0x05, 0x06] ++ List.replicate 4 0 ++ toBytesLE n 2 ++ toBytesLE n 2)
    (toBytesLE s 4)
    (toBytesLE o 4 ++ List.replicate 2 0)
    12 4
    (by rw [zip_end_of_central_directory_eq n s o]; simp [List.append_assoc])
    (by simp [length_toBytesLE])
    (length_toBytesLE s 4)

theorem zip_eocd_offset_field (n s o : Nat) :
    ((zip_end_of_central_directory n s o).drop 16).take 4 = toBytesLE o 4 := by
  exact @drop_take_of_eq (zip_end_of_central_directory n s o)
    ([0x50, 0x4b, 0x05, 0x06] ++ List.replicate 4 0 ++ toBytesLE n 2 ++ toBytesLE n 2 ++
      toBytesLE s 4)
    (toBytesLE o 4)
    (List.replicate 2 0)
    16 4
    (by rw [zip_end_of_central_directory_eq n s o]; simp [List.append_assoc])
    (by simp [length_toBytesLE])
    (length_toBytesLE o 4)

/- ## Tar checksum field facts -/

theorem tar_header_checksum_facts (filename : String) (fd : FileData)
    (h : tarOk filename fd) :
    octVal (((tar_header_chunk filename fd).drop 148).take 6) =
        256 + ((tar_header_chunk filename fd).take 148).sum +
          ((tar_header_chunk filename fd).drop 156).sum ∧
      ((tar_header_chunk filename fd).drop 154).take 2 = [0, 32] := by
  obtain ⟨hL, hascii, hmode, huid, hgid, hsize, hmtime⟩ := h
  have hnm : (encodeAscii filename).length = filename.length := length_encodeAscii filename
  have hm7 : (rjust 7 48 (octStr fd.mode)).length = 7 :=
    length_rjust 7 48 _ (octStr_length_le _ 7 (by norm_num) hmode)
  have hu7 : (rjust 7 48 (octStr fd.uid)).length = 7 :=
    length_rjust 7 48 _ (octStr_length_le _ 7 (by norm_num) huid)
  have hg7 : (rjust 7 48 (octStr fd.gid)).length = 7 :=
    length_rjust 7 48 _ (octStr_length_le _ 7 (by norm_num) hgid)
  have hs11 : (rjust 11 48 (octStr fd.content.length)).length = 11 :=
    length_rjust 11 48 _ (octStr_length_le _ 11 (by norm_num) hsize)
  have ht11 : (rjust 11 48 (octStr fd.mtime)).length = 11 :=
    length_rjust 11 48 _ (octStr_length_le _ 11 (by norm_num) hmtime)
  have hck : (rjust 6 48 (octStr (tarChecksumVal filename fd))).length = 6 :=
    length_rjust 6 48 _ (octStr_length_le _ 6 (by norm_num)
      (tarChecksumVal_lt filename fd ⟨hL, hascii, hmode, huid, hgid, hsize, hmtime⟩))
  have hre : tar_header_chunk filename fd =
      (encodeAscii filename ++ List.replicate (100 - filename.length) 0 ++
        rjust 7 48 (octStr fd.mode) ++ List.replicate 1 0 ++
        rjust 7 48 (octStr fd.uid) ++ List.replicate 1 0 ++
        rjust 7 48 (octStr fd.gid) ++ List.replicate 1 0 ++
        rjust 11 48 (octStr fd.content.length) ++ List.replicate 1 0 ++
        rjust 11 48 (octStr fd.mtime) ++ List.replicate 1 0) ++
        (rjust 6 48 (octStr (tarChecksumVal filename fd)) ++
          (0 :: 32 :: 48 :: List.replicate 355 0)) := by
    rw [tar_header_chunk_eq filename fd ⟨hL, hascii, hmode, huid, hgid, hsize, hmtime⟩]
    simp [List.append_assoc]
  have hP148 : (encodeAscii filename ++ List.replicate (100 - filename.length) 0 ++
      rjust 7 48 (octStr fd.mode) ++ List.replicate 1 0 ++
      rjust 7 48 (octStr fd.uid) ++ List.replicate 1 0 ++
      rjust 7 48 (octStr fd.gid) ++ List.replicate 1 0 ++
      rjust 11 48 (octStr fd.content.length) ++ List.replicate 1 0 ++
      rjust 11 48 (octStr fd.mtime) ++ List.replicate 1 0).length = 148 := by
    simp [hnm, hm7, hu7, hg7, hs11, ht11]
    omega
  constructor
  · have hcks : ((tar_header_chunk filename fd).drop 148).take 6 =
        rjust 6 48 (octStr (tarChecksumVal filename fd)) :=
      drop_take_of_eq hre hP148 hck
    have htake : (tar_header_chunk filename fd).take 148 =
        encodeAscii filename ++ List.replicate (100 - filename.length) 0 ++
          rjust 7 48 (octStr fd.mode) ++ List.replicate 1 0 ++
          rjust 7 48 (octStr fd.uid) ++ List.replicate 1 0 ++
          rjust 7 48 (octStr fd.gid) ++ List.replicate 1 0 ++
          rjust 11 48 (octStr fd.content.length) ++ List.replicate 1 0 ++
          rjust 11 48 (octStr fd.mtime) ++ List.replicate 1 0 := by
      rw [hre]
      exact List.take_left' hP148
    have hdrop156 : (tar_header_chunk filename fd).drop 156 =
        48 :: List.replicate 355 0 := by
      rw [hre, List.drop_append_eq_append_drop, List.drop_eq_nil_of_le (by omega),
        List.nil_append, hP148, List.drop_append_eq_append_drop, hck,
        List.drop_eq_nil_of_le (by omega), List.nil_append]
      norm_num
    rw [hcks, htake, hdrop156, octVal_rjust_octStr]
    simp only [tarChecksumVal, List.sum_append, List.sum_cons, sum_replicate_zero]
    omega
  · have h154 : ((tar_header_chunk filename fd).drop 154).take 2 = [0, 32] := by
      refine @drop_take_of_eq (tar_header_chunk filename fd)
        ((encodeAscii filename ++ List.replicate (100 - filename.length) 0 ++
          rjust 7 48 (octStr fd.mode) ++ List.replicate 1 0 ++
          rjust 7 48 (octStr fd.uid) ++ List.replicate 1 0 ++
          rjust 7 48 (octStr fd.gid) ++ List.replicate 1 0 ++
          rjust 11 48 (octStr fd.content.length) ++ List.replicate 1 0 ++
          rjust 11 48 (octStr fd.mtime) ++ List.replicate 1 0) ++
          rjust 6 48 (octStr (tarChecksumVal filename fd)))
        [0, 32]
        (48 :: List.replicate 355 0)
        154 2 ?_ (by simp [hnm, hm7, hu7, hg7, hs11, ht11, hck]; omega) rfl
      rw [hre]
      simp [List.append_assoc]
    exact h154

/- ## add_file dictionary lemmas -/

theorem beq_symm_false {a b : String} (h : (a == b) = false) : (b == a) = false := by
  rw [beq_eq_false_iff_ne] at h ⊢
  exact h.symm

theorem add_file_map_fst (files : List (String × String)) (nm s : String) :
    (ArchiveSender.add_file files nm s).map Prod.fst =
      if files.any (fun e => e.1 == nm) then files.map Prod.fst
      else files.map Prod.fst ++ [nm] := by
  unfold ArchiveSender.add_file
  split
  · rw [List.map_map]
    refine List.map_congr_left ?_
    intro e he
    by_cases hbe : (e.1 == nm) = true
    · have : e.1 = nm := by simpa using hbe
      simp [hbe, this]
    · simp only [Function.comp_apply, if_neg hbe]
  · simp

theorem add_file_any_self (files : List (String × String)) (nm s : String) :
    (ArchiveSender.add_file files nm s).any (fun e => e.1 == nm) = true := by
  unfold ArchiveSender.add_file
  split
  · rename_i hany
    simp only [List.any_eq_true] at hany ⊢
    obtain ⟨e, he, hbe⟩ := hany
    refine ⟨(nm, s), ?_, by simp⟩
    exact List.mem_map.mpr ⟨e, he, by simp [hbe]⟩
  · simp only [List.any_eq_true]
    exact ⟨(nm, s), by simp, by simp⟩

theorem lookup_map_replace (files : List (String × String)) (nm s other : String)
    (hne : other ≠ nm) :
    (files.map (fun e => if e.1 == nm then (nm, s) else e)).lookup other =
      files.lookup other := by
  induction files with
  | nil => simp
  | cons e rest ih =>
    obtain ⟨k, v⟩ := e
    simp only [List.map_cons]
    dsimp only
    by_cases hbe : (k == nm) = true
    · rw [if_pos hbe, List.lookup_cons, List.lookup_cons]
      have hk : k = nm := by simpa using hbe
      have ho1 : (other == nm) = false := by simpa using hne
      have ho2 : (other == k) = false := by rw [hk]; exact ho1
      simp only [ho1, ho2]
      exact ih
    · rw [if_neg hbe, List.lookup_cons, List.lookup_cons]
      cases hok : (other == k)
      · simp only [hok]
        exact ih
      · simp only [hok]

theorem lookup_append_single (files : List (String × String)) (nm s other : String)
    (hne : other ≠ nm) :
    (files ++ [(nm, s)]).lookup other = files.lookup other := by
  induction files with
  | nil =>
    rw [List.nil_append, List.lookup_cons]
    have ho : (other == nm) = false := by simpa using hne
    simp [ho]
  | cons e rest ih =>
    obtain ⟨k, v⟩ := e
    rw [List.cons_append, List.lookup_cons, List.lookup_cons]
    cases hok : (other == k)
    · simp only [hok]
      exact ih
    · simp only [hok]

theorem add_file_lookup_other (files : List (String × String)) (nm s other : String)
    (hne : other ≠ nm) :
    (ArchiveSender.add_file files nm s).lookup other = files.lookup other := by
  unfold ArchiveSender.add_file
  split
  · exact lookup_map_replace files nm s other hne
  · exact lookup_append_single files nm s other hne

theorem lookup_map_replace_self (files : List (String × String)) (nm s : String)
    (h : files.any (fun e => e.1 == nm) = true) :
    (files.map (fun e => if e.1 == nm then (nm, s) else e)).lookup nm = some s := by
  induction files with
  | nil => simp at h
  | cons e rest ih =>
    obtain ⟨k, v⟩ := e
    simp only [List.map_cons]
    dsimp only
    by_cases hbe : (k == nm) = true
    · rw [if_pos hbe, List.lookup_cons]
      simp
    · rw [if_neg hbe, List.lookup_cons]
      simp only [List.any_cons, Bool.or_eq_true] at h
      have hrest : rest.any (fun e => e.1 == nm) = true := by
        rcases h with h1 | h2
        · exact absurd h1 hbe
        · exact h2
      have hono : (nm == k) = false :=
        beq_symm_false (by simpa using hbe)
      simp only [hono]
      exact ih hrest

theorem lookup_append_self (files : List (String × String)) (nm s : String)
    (h : files.any (fun e => e.1 == nm) = false) :
    (files ++ [(nm, s)]).lookup nm = some s := by
  induction files with
  | nil =>
    rw [List.nil_append, List.lookup_cons]
    simp
  | cons e rest ih =>
    obtain ⟨k, v⟩ := e
    simp only [List.any_cons, Bool.or_eq_false_iff] at h
    rw [List.cons_append, List.lookup_cons]
    have hono : (nm == k) = false := beq_symm_false h.1
    simp only [hono]
    exact ih h.2

theorem add_file_lookup_self (files : List (String × String)) (nm s : String) :
    (ArchiveSender.add_file files nm s).lookup nm = some s := by
  unfold ArchiveSender.add_file
  split
  · rename_i hany
    exact lookup_map_replace_self files nm s hany
  · rename_i hany
    exact lookup_append_self files nm s (Bool.eq_false_iff.mpr hany)

theorem add_file_nodup (files : List (String × String)) (nm s : String)
    (h : (files.map Prod.fst).Nodup) :
    ((ArchiveSender.add_file files nm s).map Prod.fst).Nodup := by
  rw [add_file_map_fst]
  split
  · exact h
  · rename_i hany
    have hmem : nm ∉ files.map Prod.fst := by
      intro hmem
      obtain ⟨e, he, hfst⟩ := List.mem_map.mp hmem
      have : files.any (fun e => e.1 == nm) = true :=
        List.any_eq_true.mpr ⟨e, he, by simp [hfst]⟩
      exact hany this
    simp [List.nodup_append, h, hmem]

theorem add_file_mem_key (files : List (String × String)) (nm s : String) :
    nm ∈ (ArchiveSender.add_file files nm s).map Prod.fst := by
  have := add_file_any_self files nm s
  simp only [List.any_eq_true] at this
  obtain ⟨e, he, hbe⟩ := this
  exact List.mem_map.mpr ⟨e, he, by simpa using hbe⟩

/- ## Sum and total length helpers -/

theorem sum_map_add {α : Type _} (l : List α) (f g : α → Nat) :
    (l.map f).sum + (l.map g).sum = (l.map (fun x => f x + g x)).sum := by
  induction l with
  | nil => rfl
  | cons x xs ih =>
    simp only [List.map_cons, List.sum_cons]
    omega

theorem sum_take_le (l : List Nat) (i : Nat) : (l.take i).sum ≤ l.sum := by
  induction l generalizing i with
  | nil => simp
  | cons x xs ih =>
    match i with
    | 0 => simp
    | Nat.succ i =>
      simp only [List.take_succ_cons, List.sum_cons]
      exact Nat.add_le_add_left (ih i) x

theorem flatten_map_length_sum (L : List (List (List Nat))) :
    ((L.flatten).map List.length).sum = (L.map (fun c => (c.map List.length).sum)).sum := by
  induction L with
  | nil => rfl
  | cons x xs ih =>
    simp only [List.flatten_cons, List.map_append, List.sum_append, List.map_cons,
      List.sum_cons, ih]

theorem tar_total_len (ents : List (String × String × FileData))
    (h : ∀ e ∈ ents, tarOk e.1 e.2.2) :
    (((ents.map (fun e => tarEntryChunks e.1 e.2.2)).flatten).map List.length).sum =
      (ents.map (fun e =>
        512 + e.2.2.content.length + (512 - e.2.2.content.length % 512))).sum := by
  induction ents with
  | nil => rfl
  | cons e rest ih =>
    simp only [List.map_cons, List.flatten_cons, List.map_append, List.sum_append,
      List.sum_cons]
    rw [ih (fun x hx => h x (List.mem_cons_of_mem e hx))]
    have hentry : ((tarEntryChunks e.1 e.2.2).map List.length).sum =
        512 + e.2.2.content.length + (512 - e.2.2.content.length % 512) := by
      rw [← List.length_flatten, tarEntryChunks_flatten]
      simp only [List.length_append, List.length_replicate]
      rw [tar_header_chunk_length e.1 e.2.2 (h e (List.mem_cons_self e rest))]
    rw [hentry]

theorem zipStreamLen_blocks (ents : List (String × String × FileData)) :
    zipStreamLen ents = (ents.map (fun e => (zipLocalBlock e.1 e.2.2).length)).sum := by
  unfold zipStreamLen
  refine congrArg List.sum (List.map_congr_left ?_)
  intro e he
  simp [zipLocalBlock]

theorem zipStreamLen_eq (ents : List (String × String × FileData))
    (hne : ∀ e ∈ ents, 1 ≤ e.1.length) :
    zipStreamLen ents =
      (ents.map (fun e => 30 + e.1.length + e.2.2.content.length)).sum := by
  unfold zipStreamLen
  refine congrArg List.sum (List.map_congr_left ?_)
  intro e he
  rw [zip_local_file_header_length e.1 e.2.2 (crc32 e.2.2.content) (hne e he)]

theorem zip_regions_total (ents : List (String × String × FileData))
    (hne : ∀ e ∈ ents, 1 ≤ e.1.length) :
    (zipLocalRegion ents).length + (zipCdRegion ents).length + 22 = zipTotal ents := by
  rw [zipLocalRegion_length, zipStreamLen_eq ents hne, zipCdRegion_length]
  unfold zipTotal
  rw [sum_map_add]
  refine congrArg (fun v => v + 22) (congrArg List.sum (List.map_congr_left ?_))
  intro e he
  omega

theorem zipLocalOffset_le (ents : List (String × String × FileData)) (i : Nat) :
    zipLocalOffset ents i ≤ (zipLocalRegion ents).length := by
  rw [zipLocalRegion_length, zipStreamLen_blocks]
  unfold zipLocalOffset
  rw [List.map_take]
  exact sum_take_le _ i

/- ## Claim theorems -/

/-- C9: for every byte sequence, the crc32 utility of the repository — which
folds zlib.crc32 over successive 65536 byte chunks with the running value as
the seed — returns the same value as a single zlib.crc32 call over the entire
contents at once. -/
theorem claim_c9_crc32_chunked_eq_whole (content : List Nat) :
    crc32 content = zlibCrc32 content 0 :=
  crc32Loop_eq_zlibCrc32 content 0

/-- C10: with no registered files, the tar generator produces an empty stream
and its content_length is 0, while the zip generator produces exactly one
22 byte end of central directory record whose entry count, central directory
size and central directory offset fields (bytes 8..19) are all zero, and its
content_length is 22. -/
theorem claim_c10_empty_sender (fs : FSys) :
    TarSender.generator [] fs = some [] ∧
    TarSender.content_length [] fs = some 0 ∧
    ZipSender.generator [] fs = some [zip_end_of_central_directory 0 0 0] ∧
    (zip_end_of_central_directory 0 0 0).length = 22 ∧
    ((zip_end_of_central_directory 0 0 0).drop 8).take 12 = List.replicate 12 0 ∧
    ZipSender.content_length [] fs = some 22 := by
  refine ⟨rfl, rfl, ?_, by decide, by decide, ?_⟩
  · rw [ZipSender_generator_eq [] fs [] (entriesOf_nil fs)]
    rfl
  · rfl

/-- C8: add_file is modelled as a pure update of the name to source mapping:
it takes no filesystem input, so it performs no filesystem access and cannot
fail; even when the source path does not resolve on the filesystem, the entry
is registered, the mapping for the name becomes the new source, every other
name is unaffected, and key uniqueness is preserved.  Failure is deferred to
the generators, which do consult the filesystem. -/
theorem claim_c8_add_file_pure (files : List (String × String)) (nm src : String)
    (fs : FSys) (hmissing : fs.lookup src = none) :
    (ArchiveSender.add_file files nm src).lookup nm = some src ∧
    (∀ other, other ≠ nm →
      (ArchiveSender.add_file files nm src).lookup other = files.lookup other) ∧
    ((files.map Prod.fst).Nodup →
      ((ArchiveSender.add_file files nm src).map Prod.fst).Nodup) := by
  refine ⟨add_file_lookup_self files nm src, ?_, ?_⟩
  · intro other hne
    exact add_file_lookup_other files nm src other hne
  · intro hnd
    exact add_file_nodup files nm src hnd

/-- C8 witness: registering a source path that does not exist on an empty
filesystem succeeds, updates the mapping for that name, and leaves the other
entry unchanged. -/
theorem claim_c8_add_file_pure_witness :
    (ArchiveSender.add_file [("a", "x")] "b" "missing").lookup "b" = some "missing" ∧
    (ArchiveSender.add_file [("a", "x")] "b" "missing").lookup "a" =
      [("a", "x")].lookup "a" := by
  have h := claim_c8_add_file_pure [("a", "x")] "b" "missing" [] rfl
  exact ⟨h.1, h.2.1 "a" (by decide)⟩

/-- C7: starting from a mapping with unique keys, registering the same
archive path twice (with possibly different sources) leaves exactly one
entry for that path, mapped to the most recently registered source, and key
uniqueness is preserved.  Both generators iterate exactly this mapping, so
the produced archive contains exactly one entry for that path. -/
theorem claim_c7_add_file_replaces (files : List (String × String))
    (nm s1 s2 : String) (hnd : (files.map Prod.fst).Nodup) :
    (((ArchiveSender.add_file (ArchiveSender.add_file files nm s1) nm s2).map
      Prod.fst).count nm = 1) ∧
    (ArchiveSender.add_file (ArchiveSender.add_file files nm s1) nm s2).lookup nm =
      some s2 ∧
    ((ArchiveSender.add_file (ArchiveSender.add_file files nm s1) nm s2).map
      Prod.fst).Nodup := by
  have h1nd := add_file_nodup files nm s1 hnd
  have h2nd := add_file_nodup (ArchiveSender.add_file files nm s1) nm s2 h1nd
  refine ⟨?_, add_file_lookup_self _ nm s2, h2nd⟩
  rw [add_file_map_fst (ArchiveSender.add_file files nm s1) nm s2,
    if_pos (add_file_any_self files nm s1)]
  exact List.count_eq_one_of_mem h1nd (add_file_mem_key files nm s1)

/-- C7 witness at a concrete mapping: two registrations of "a" leave one
entry with the newest source. -/
theorem claim_c7_add_file_replaces_witness :
    (((ArchiveSender.add_file (ArchiveSender.add_file [("x", "p")] "a" "p1") "a" "p2").map
      Prod.fst).count "a" = 1) ∧
    (ArchiveSender.add_file (ArchiveSender.add_file [("x", "p")] "a" "p1") "a" "p2").lookup
      "a" = some "p2" := by
  have h := claim_c7_add_file_replaces [("x", "p")] "a" "p1" "p2" (by decide)
  exact ⟨h.1, h.2.1⟩

/-- C6: for every tar header produced by tar_header_chunk whose archive path
is at most 100 ASCII bytes (and whose stat fields fit their octal widths, as
the spec field table prescribes), the header is 512 bytes, the 6 octal digit
value stored at bytes 148..153 equals the sum of all header bytes with the
checksum field treated as eight spaces — that is, the other 504 bytes plus
the constant 256 — and byte 154 is NUL while byte 155 is SPACE. -/
theorem claim_c6_tar_checksum (filename : String) (fd : FileData)
    (h : tarOk filename fd) :
    (tar_header_chunk filename fd).length = 512 ∧
    octVal (((tar_header_chunk filename fd).drop 148).take 6) =
      256 + ((tar_header_chunk filename fd).take 148).sum +
        ((tar_header_chunk filename fd).drop 156).sum ∧
    ((tar_header_chunk filename fd).drop 154).take 2 = [0, 32] := by
  exact ⟨tar_header_chunk_length filename fd h,
    (tar_header_checksum_facts filename fd h).1,
    (tar_header_checksum_facts filename fd h).2⟩

/-- C6 witness at a concrete file and name. -/
theorem claim_c6_tar_checksum_witness :
    (tar_header_chunk "a" ⟨420, 1000, 1000, 99, 0, 0, 0, 1, 1, 1980, [1, 2, 3]⟩).length =
        512 ∧
    octVal (((tar_header_chunk "a"
        ⟨420, 1000, 1000, 99, 0, 0, 0, 1, 1, 1980, [1, 2, 3]⟩).drop 148).take 6) =
      256 + ((tar_header_chunk "a"
        ⟨420, 1000, 1000, 99, 0, 0, 0, 1, 1, 1980, [1, 2, 3]⟩).take 148).sum +
        ((tar_header_chunk "a"
          ⟨420, 1000, 1000, 99, 0, 0, 0, 1, 1, 1980, [1, 2, 3]⟩).drop 156).sum ∧
    ((tar_header_chunk "a"
        ⟨420, 1000, 1000, 99, 0, 0, 0, 1, 1, 1980, [1, 2, 3]⟩).drop 154).take 2 = [0, 32] :=
  claim_c6_tar_checksum "a" ⟨420, 1000, 1000, 99, 0, 0, 0, 1, 1, 1980, [1, 2, 3]⟩ (by decide)

/-- C5: for every registered entry resolved against the filesystem, the tar
generator emits exactly the chunks of tarEntryChunks per entry: a 512 byte
header, the payload read in CHUNK_SIZE chunks (whose concatenation is the
payload), then an unconditional zero padding of 512 - size % 512 bytes; the
payload plus padding length is a positive multiple of 512, and when the size
is itself a multiple of 512 (including 0) the padding is a full 512 byte
block. -/
theorem claim_c5_tar_padding (files : List (String × String)) (fs : FSys)
    (ents : List (String × String × FileData))
    (hents : entriesOf files fs = some ents) :
    TarSender.generator files fs =
      some ((ents.map (fun e => tarEntryChunks e.1 e.2.2)).flatten) ∧
    ∀ nm p fd, (nm, p, fd) ∈ ents → tarOk nm fd →
      (tar_header_chunk nm fd).length = 512 ∧
      tarEntryChunks nm fd = tar_header_chunk nm fd ::
        (chunksOfN CHUNK_SIZE fd.content ++
          [List.replicate (512 - fd.content.length % 512) 0]) ∧
      (chunksOfN CHUNK_SIZE fd.content).flatten = fd.content ∧
      0 < 512 - fd.content.length % 512 ∧
      512 - fd.content.length % 512 ≤ 512 ∧
      (fd.content.length + (512 - fd.content.length % 512)) % 512 = 0 ∧
      (fd.content.length % 512 = 0 → 512 - fd.content.length % 512 = 512) := by
  refine ⟨TarSender_generator_eq files fs ents hents, ?_⟩
  intro nm p fd hmem hok
  refine ⟨tar_header_chunk_length nm fd hok, rfl,
    flatten_chunksOfN CHUNK_SIZE (by norm_num [CHUNK_SIZE]) fd.content, ?_, ?_, ?_, ?_⟩
  · have := Nat.mod_lt fd.content.length (y := 512) (by omega)
    omega
  · omega
  · omega
  · omega

/-- C5 witness at a 3 byte file (padding 509) and the generator run on it. -/
theorem claim_c5_tar_padding_witness :
    (tar_header_chunk "a" ⟨420, 1000, 1000, 99, 0, 0, 0, 1, 1, 1980, [1, 2, 3]⟩).length =
        512 ∧
    tarEntryChunks "a" ⟨420, 1000, 1000, 99, 0, 0, 0, 1, 1, 1980, [1, 2, 3]⟩ =
      tar_header_chunk "a" ⟨420, 1000, 1000, 99, 0, 0, 0, 1, 1, 1980, [1, 2, 3]⟩ ::
        (chunksOfN CHUNK_SIZE [1, 2, 3] ++ [List.replicate (512 - 3 % 512) 0]) ∧
    (chunksOfN CHUNK_SIZE ([1, 2, 3] : List Nat)).flatten = [1, 2, 3] ∧
    0 < 512 - 3 % 512 ∧
    512 - 3 % 512 ≤ 512 ∧
    ((3 : Nat) + (512 - 3 % 512)) % 512 = 0 ∧
    ((3 : Nat) % 512 = 0 → 512 - 3 % 512 = 512) :=
  (claim_c5_tar_padding [("a", "p")]
    [("p", ⟨420, 1000, 1000, 99, 0, 0, 0, 1, 1, 1980, [1, 2, 3]⟩)]
    [("a", "p", ⟨420, 1000, 1000, 99, 0, 0, 0, 1, 1, 1980, [1, 2, 3]⟩)] rfl).2
    "a" "p" ⟨420, 1000, 1000, 99, 0, 0, 0, 1, 1, 1980, [1, 2, 3]⟩ (by decide) (by decide)

/-- C2 counterexample: with the empty archive path, the local file header is
29 bytes, not 30 + 0: the bytearray assignment buffer[4:6] = b"\x0a" shrinks
the buffer by one byte and the final filename assignment, empty here, never
grows it back. -/
theorem claim_c2_counterexample :
    (zip_local_file_header "" ⟨0, 0, 0, 0, 0, 0, 0, 1, 1, 1980, []⟩ 0).length ≠
      30 + ("" : String).length := by
  decide

/-- C2 (amended to nonempty archive paths with a DOS representable mtime):
for every entry with a nonempty ASCII archive path, fields within the non
Zip64 limits, and a local mtime decomposition in the DOS range 1980..2107
(outside it Python's date word .to_bytes raises OverflowError, see mtimeOk),
the local file header is exactly 30 + length(p) bytes starting with
50 4B 03 04, then version needed = 10, flags = 0 and method = 0 at bytes
4..9; the central directory header is exactly 46 + length(p) bytes starting
with 50 4B 01 02, then version made by = 10 and version needed = 10 at bytes
4..7; and both DOS words fit their 16 bit fields, so the emission succeeds. -/
theorem claim_c2_zip_header_layout (filename : String) (fd : FileData)
    (crc offset : Nat) (hne : 1 ≤ filename.length) (hascii : asciiName filename)
    (hnm : filename.length < 2 ^ 16) (hsz : fd.content.length < 2 ^ 32)
    (hcrc : crc < 2 ^ 32) (hoff : offset < 2 ^ 32) (hmt : mtimeOk fd) :
    (zip_local_file_header filename fd crc).length = 30 + filename.length ∧
    (zip_local_file_header filename fd crc).take 4 = [0x50, 0x4b, 0x03, 0x04] ∧
    ((zip_local_file_header filename fd crc).drop 4).take 2 = [0x0a, 0] ∧
    ((zip_local_file_header filename fd crc).drop 6).take 2 = [0, 0] ∧
    ((zip_local_file_header filename fd crc).drop 8).take 2 = [0, 0] ∧
    (zip_central_directory_file_header filename fd crc offset).length =
      46 + filename.length ∧
    (zip_central_directory_file_header filename fd crc offset).take 4 =
      [0x50, 0x4b, 0x01, 0x02] ∧
    ((zip_central_directory_file_header filename fd crc offset).drop 4).take 2 =
      [0x0a, 0] ∧
    ((zip_central_directory_file_header filename fd crc offset).drop 6).take 2 =
      [0x0a, 0] ∧
    dosTime fd < 2 ^ 16 ∧ dosDate fd < 2 ^ 16 := by
  obtain ⟨⟨hl1, hl2⟩, hl3, hl4⟩ := zip_local_header_front filename fd crc hne
  obtain ⟨⟨hc1, hc2⟩, hc3⟩ := zip_cd_header_front filename fd crc offset
  exact ⟨zip_local_file_header_length filename fd crc hne, hl1, hl2, hl3, hl4,
    zip_central_directory_file_header_length filename fd crc offset, hc1, hc2, hc3,
    dosTime_lt fd hmt, dosDate_lt fd hmt⟩

/-- C2 witness at archive path "ab" with a valid 1980-01-01 mtime. -/
theorem claim_c2_zip_header_layout_witness :
    (zip_local_file_header "ab" ⟨0, 0, 0, 0, 0, 0, 0, 1, 1, 1980, [7]⟩ 5).length =
        30 + ("ab" : String).length ∧
    (zip_local_file_header "ab" ⟨0, 0, 0, 0, 0, 0, 0, 1, 1, 1980, [7]⟩ 5).take 4 =
      [0x50, 0x4b, 0x03, 0x04] ∧
    ((zip_local_file_header "ab" ⟨0, 0, 0, 0, 0, 0, 0, 1, 1, 1980, [7]⟩ 5).drop 4).take 2 =
      [0x0a, 0] ∧
    ((zip_local_file_header "ab" ⟨0, 0, 0, 0, 0, 0, 0, 1, 1, 1980, [7]⟩ 5).drop 6).take 2 =
      [0, 0] ∧
    ((zip_local_file_header "ab" ⟨0, 0, 0, 0, 0, 0, 0, 1, 1, 1980, [7]⟩ 5).drop 8).take 2 =
      [0, 0] ∧
    (zip_central_directory_file_header "ab" ⟨0, 0, 0, 0, 0, 0, 0, 1, 1, 1980, [7]⟩ 5
        9).length = 46 + ("ab" : String).length ∧
    (zip_central_directory_file_header "ab" ⟨0, 0, 0, 0, 0, 0, 0, 1, 1, 1980, [7]⟩ 5
        9).take 4 = [0x50, 0x4b, 0x01, 0x02] ∧
    ((zip_central_directory_file_header "ab" ⟨0, 0, 0, 0, 0, 0, 0, 1, 1, 1980, [7]⟩ 5
        9).drop 4).take 2 = [0x0a, 0] ∧
    ((zip_central_directory_file_header "ab" ⟨0, 0, 0, 0, 0, 0, 0, 1, 1, 1980, [7]⟩ 5
        9).drop 6).take 2 = [0x0a, 0] ∧
    dosTime ⟨0, 0, 0, 0, 0, 0, 0, 1, 1, 1980, [7]⟩ < 2 ^ 16 ∧
    dosDate ⟨0, 0, 0, 0, 0, 0, 0, 1, 1, 1980, [7]⟩ < 2 ^ 16 :=
  claim_c2_zip_header_layout "ab" ⟨0, 0, 0, 0, 0, 0, 0, 1, 1, 1980, [7]⟩ 5 9
    (by decide) (by decide) (by decide) (by norm_num) (by norm_num) (by norm_num)
    (by decide)

/-- C4: the zip generator computes the crc of each entry once (crc32 of the
content), places it in that entry's local header and reuses it in that entry's
central directory header: the 4 byte crc fields of both headers hold the same
little endian value, which equals the crc computed independently over the
whole source bytes in one zlib.crc32 call; decoding the field gives back the
value exactly (it fits 32 bits).  Every entry is required to satisfy
zipEntryOk, whose mtimeOk conjunct confines the claim to mtimes in the DOS
range 1980..2107, where the header builders do not raise OverflowError on
the date word. -/
theorem claim_c4_zip_crc_consistency (files : List (String × String)) (fs : FSys)
    (ents : List (String × String × FileData))
    (hents : entriesOf files fs = some ents)
    (hok : ∀ e ∈ ents, zipEntryOk e.1 e.2.2)
    (hne : ∀ e ∈ ents, 1 ≤ e.1.length)
    (i : Nat) (hi : i < ents.length) :
    ZipSender.generator files fs =
      some (zipChunks ents ++ zipCds ents 0 ++
        [zip_end_of_central_directory files.length
          (((zipCds ents 0).map List.length).sum) (zipStreamLen ents)]) ∧
    ((zip_local_file_header (ents[i].1) (ents[i].2.2)
        (crc32 ents[i].2.2.content)).drop 14).take 4 =
      toBytesLE (crc32 ents[i].2.2.content) 4 ∧
    (((zipCds ents 0).getD i []).drop 16).take 4 =
      toBytesLE (crc32 ents[i].2.2.content) 4 ∧
    crc32 ents[i].2.2.content = zlibCrc32 ents[i].2.2.content 0 ∧
    fromBytesLE (toBytesLE (crc32 ents[i].2.2.content) 4) =
      crc32 ents[i].2.2.content := by
  have hmem : ents[i] ∈ ents := List.getElem_mem hi
  refine ⟨ZipSender_generator_eq files fs ents hents, ?_, ?_, crc32_eq_whole _, ?_⟩
  · exact zip_local_header_crc_field (ents[i].1) (ents[i].2.2)
      (crc32 ents[i].2.2.content) (hne ents[i] hmem)
  · rw [zipCds_getD ents 0 i hi]
    exact zip_cd_header_crc_field (ents[i].1) (ents[i].2.2)
      (crc32 ents[i].2.2.content) (0 + zipLocalOffset ents i)
  · exact fromBytesLE_toBytesLE (crc32 ents[i].2.2.content) 4
      (crc32_lt ents[i].2.2.content (hok ents[i] hmem).2.2.2.1)

/-- C4 witness at a one entry archive with a 3 byte file. -/
theorem claim_c4_zip_crc_consistency_witness :
    ZipSender.generator [("a", "p")]
        [("p", ⟨0, 0, 0, 0, 0, 0, 0, 1, 1, 1980, [1, 2, 3]⟩)] =
      some (zipChunks [("a", "p", ⟨0, 0, 0, 0, 0, 0, 0, 1, 1, 1980, [1, 2, 3]⟩)] ++
        zipCds [("a", "p", ⟨0, 0, 0, 0, 0, 0, 0, 1, 1, 1980, [1, 2, 3]⟩)] 0 ++
        [zip_end_of_central_directory 1
          (((zipCds [("a", "p", ⟨0, 0, 0, 0, 0, 0, 0, 1, 1, 1980, [1, 2, 3]⟩)] 0).map
            List.length).sum)
          (zipStreamLen [("a", "p", ⟨0, 0, 0, 0, 0, 0, 0, 1, 1, 1980, [1, 2, 3]⟩)])]) ∧
    ((zip_local_file_header "a" ⟨0, 0, 0, 0, 0, 0, 0, 1, 1, 1980, [1, 2, 3]⟩
        (crc32 [1, 2, 3])).drop 14).take 4 = toBytesLE (crc32 [1, 2, 3]) 4 ∧
    (((zipCds [("a", "p", ⟨0, 0, 0, 0, 0, 0, 0, 1, 1, 1980, [1, 2, 3]⟩)] 0).getD 0
        []).drop 16).take 4 = toBytesLE (crc32 [1, 2, 3]) 4 ∧
    crc32 [1, 2, 3] = zlibCrc32 [1, 2, 3] 0 ∧
    fromBytesLE (toBytesLE (crc32 [1, 2, 3]) 4) = crc32 [1, 2, 3] :=
  claim_c4_zip_crc_consistency [("a", "p")]
    [("p", ⟨0, 0, 0, 0, 0, 0, 0, 1, 1, 1980, [1, 2, 3]⟩)]
    [("a", "p", ⟨0, 0, 0, 0, 0, 0, 0, 1, 1, 1980, [1, 2, 3]⟩)] rfl
    (by decide) (by decide) 0 (by decide)

/-- C3: the flattened zip stream is the local region, then the central
directory region, then one end of central directory record whose count, size
and offset arguments are the actual entry count, the actual byte length of
the central directory region and the actual byte offset at which that region
begins; each entry's local header actually begins at zipLocalOffset, the
4 byte offset field of its central directory header stores exactly that
offset, and the stored size, offset and per entry offset fields decode back
to the actual values (they fit 32 bits under the non Zip64 bounds).  The
zipOk hypothesis also requires every entry's mtime decomposition to lie in
the DOS range 1980..2107 (mtimeOk), outside which the real generator raises
OverflowError on the date word instead of producing the stream. -/
theorem claim_c3_zip_offsets (files : List (String × String)) (fs : FSys)
    (ents : List (String × String × FileData))
    (hents : entriesOf files fs = some ents)
    (hok : zipOk ents)
    (hne : ∀ e ∈ ents, 1 ≤ e.1.length) :
    (ZipSender.generator files fs).map (fun c => c.flatten) =
      some (zipLocalRegion ents ++ zipCdRegion ents ++
        zip_end_of_central_directory ents.length (zipCdRegion ents).length
          (zipLocalRegion ents).length) ∧
    (∀ i, i < ents.length →
      ((zipLocalRegion ents ++ zipCdRegion ents ++
          zip_end_of_central_directory ents.length (zipCdRegion ents).length
            (zipLocalRegion ents).length).drop (zipLocalOffset ents i)).take
          (30 + (ents.getD i ("", "", ⟨0, 0, 0, 0, 0, 0, 0, 0, 0, 0, []⟩)).1.length) =
        zip_local_file_header
          (ents.getD i ("", "", ⟨0, 0, 0, 0, 0, 0, 0, 0, 0, 0, []⟩)).1
          (ents.getD i ("", "", ⟨0, 0, 0, 0, 0, 0, 0, 0, 0, 0, []⟩)).2.2
          (crc32 (ents.getD i ("", "", ⟨0, 0, 0, 0, 0, 0, 0, 0, 0, 0, []⟩)).2.2.content) ∧
      (((zipCds ents 0).getD i []).drop 42).take 4 =
        toBytesLE (zipLocalOffset ents i) 4 ∧
      fromBytesLE (toBytesLE (zipLocalOffset ents i) 4) = zipLocalOffset ents i) ∧
    ((zip_end_of_central_directory ents.length (zipCdRegion ents).length
        (zipLocalRegion ents).length).drop 12).take 4 =
      toBytesLE (zipCdRegion ents).length 4 ∧
    ((zip_end_of_central_directory ents.length (zipCdRegion ents).length
        (zipLocalRegion ents).length).drop 16).take 4 =
      toBytesLE (zipLocalRegion ents).length 4 ∧
    fromBytesLE (toBytesLE (zipCdRegion ents).length 4) = (zipCdRegion ents).length ∧
    fromBytesLE (toBytesLE (zipLocalRegion ents).length 4) =
      (zipLocalRegion ents).length := by
  have hpow : (256 : Nat) ^ 4 = 2 ^ 32 := by norm_num
  have htot : (zipLocalRegion ents).length + (zipCdRegion ents).length + 22 =
      zipTotal ents := zip_regions_total ents hne
  have hbound := hok.2.2
  constructor
  · rw [ZipSender_generator_eq files fs ents hents]
    simp only [Option.map]
    rw [List.flatten_append, List.flatten_append, zipChunks_flatten]
    have hcd : (zipCds ents 0).flatten = zipCdRegion ents := rfl
    have h1 : files.length = ents.length := (entriesOf_length files fs ents hents).symm
    have h2 : ((zipCds ents 0).map List.length).sum = (zipCdRegion ents).length := by
      rw [zipCdRegion, List.length_flatten]
    have h3 : zipStreamLen ents = (zipLocalRegion ents).length :=
      (zipLocalRegion_length ents).symm
    rw [hcd, h1, h2, h3]
    simp only [List.flatten_cons, List.flatten_nil, List.append_nil]
  refine ⟨?_, zip_eocd_size_field _ _ _, zip_eocd_offset_field _ _ _,
    fromBytesLE_toBytesLE _ 4 (by rw [hpow]; omega),
    fromBytesLE_toBytesLE _ 4 (by rw [hpow]; omega)⟩
  intro i hi
  have hoffle : zipLocalOffset ents i ≤ (zipLocalRegion ents).length :=
    zipLocalOffset_le ents i
  have hgetD : ents.getD i ("", "", ⟨0, 0, 0, 0, 0, 0, 0, 0, 0, 0, []⟩) = ents[i] :=
    List.getD_eq_getElem ents _ hi
  refine ⟨?_, ?_, fromBytesLE_toBytesLE _ 4 (by rw [hpow]; omega)⟩
  · rw [hgetD]
    have h1 : (zipLocalRegion ents ++ zipCdRegion ents ++
        zip_end_of_central_directory ents.length (zipCdRegion ents).length
          (zipLocalRegion ents).length).drop (zipLocalOffset ents i) =
        (zipLocalRegion ents).drop (zipLocalOffset ents i) ++
          (zipCdRegion ents ++
            zip_end_of_central_directory ents.length (zipCdRegion ents).length
              (zipLocalRegion ents).length) := by
      rw [List.append_assoc, List.drop_append_eq_append_drop]
      have hz : zipLocalOffset ents i - (zipLocalRegion ents).length = 0 := by omega
      rw [hz, List.drop_zero]
    rw [h1, zipLocalRegion_drop ents i hi]
    have h2 : zipLocalBlock (ents[i].1) (ents[i].2.2) ++
          zipLocalRegion (ents.drop (i + 1)) ++
          (zipCdRegion ents ++
            zip_end_of_central_directory ents.length (zipCdRegion ents).length
              (zipLocalRegion ents).length) =
        zip_local_file_header (ents[i].1) (ents[i].2.2) (crc32 ents[i].2.2.content) ++
          (ents[i].2.2.content ++ (zipLocalRegion (ents.drop (i + 1)) ++
          (zipCdRegion ents ++
            zip_end_of_central_directory ents.length (zipCdRegion ents).length
              (zipLocalRegion ents).length))) := by
      rw [zipLocalBlock]
      simp [List.append_assoc]
    rw [h2]
    exact List.take_left' (zip_local_file_header_length (ents[i].1) (ents[i].2.2)
      (crc32 ents[i].2.2.content) (hne ents[i] (List.getElem_mem hi)))
  · rw [zipCds_getD ents 0 i hi, Nat.zero_add]
    exact zip_cd_header_offset_field (ents[i].1) (ents[i].2.2)
      (crc32 ents[i].2.2.content) (zipLocalOffset ents i)

/-- C3 witness at a one entry archive: the stream decomposition and the
offset field of the single central directory header. -/
theorem claim_c3_zip_offsets_witness :
    (ZipSender.generator [("a", "p")]
        [("p", ⟨0, 0, 0, 0, 0, 0, 0, 1, 1, 1980, [1, 2, 3]⟩)]).map (fun c => c.flatten) =
      some (zipLocalRegion [("a", "p", ⟨0, 0, 0, 0, 0, 0, 0, 1, 1, 1980, [1, 2, 3]⟩)] ++
        zipCdRegion [("a", "p", ⟨0, 0, 0, 0, 0, 0, 0, 1, 1, 1980, [1, 2, 3]⟩)] ++
        zip_end_of_central_directory
          ([("a", "p", ⟨0, 0, 0, 0, 0, 0, 0, 1, 1, 1980, [1, 2, 3]⟩)] :
            List (String × String × FileData)).length
          (zipCdRegion [("a", "p", ⟨0, 0, 0, 0, 0, 0, 0, 1, 1, 1980, [1, 2, 3]⟩)]).length
          (zipLocalRegion [("a", "p",
            ⟨0, 0, 0, 0, 0, 0, 0, 1, 1, 1980, [1, 2, 3]⟩)]).length) ∧
    (((zipCds [("a", "p", ⟨0, 0, 0, 0, 0, 0, 0, 1, 1, 1980, [1, 2, 3]⟩)] 0).getD 0
        []).drop 42).take 4 =
      toBytesLE (zipLocalOffset [("a", "p", ⟨0, 0, 0, 0, 0, 0, 0, 1, 1, 1980, [1, 2, 3]⟩)]
        0) 4 ∧
    fromBytesLE (toBytesLE
        (zipLocalOffset [("a", "p", ⟨0, 0, 0, 0, 0, 0, 0, 1, 1, 1980, [1, 2, 3]⟩)] 0) 4) =
      zipLocalOffset [("a", "p", ⟨0, 0, 0, 0, 0, 0, 0, 1, 1, 1980, [1, 2, 3]⟩)] 0 := by
  have h := claim_c3_zip_offsets [("a", "p")]
    [("p", ⟨0, 0, 0, 0, 0, 0, 0, 1, 1, 1980, [1, 2, 3]⟩)]
    [("a", "p", ⟨0, 0, 0, 0, 0, 0, 0, 1, 1, 1980, [1, 2, 3]⟩)] rfl (by decide) (by decide)
  exact ⟨h.1, (h.2.1 0 (by decide)).2.1, (h.2.1 0 (by decide)).2.2⟩

/-- C1 counterexample: with a registered empty file whose archive path is the
empty string and whose mtime decomposes to 1980-01-01 00:00:00 (so no
OverflowError intervenes: Python really streams the archive), the zip
content_length is 98 but the generator produces 97 bytes, because the
emitted local file header is 29 bytes rather than 30 (see the C2
counterexample). -/
theorem claim_c1_counterexample :
    ZipSender.content_length [("", "p")] [("p", ⟨0, 0, 0, 0, 0, 0, 0, 1, 1, 1980, []⟩)] ≠
      (ZipSender.generator [("", "p")]
        [("p", ⟨0, 0, 0, 0, 0, 0, 0, 1, 1, 1980, []⟩)]).map
        (fun chunks => chunks.flatten.length) := by
  rw [ZipSender_generator_eq [("", "p")] [("p", ⟨0, 0, 0, 0, 0, 0, 0, 1, 1, 1980, []⟩)]
    [("", "p", ⟨0, 0, 0, 0, 0, 0, 0, 1, 1, 1980, []⟩)] rfl]
  have hcrc : crc32 [] = 0 := by
    rw [crc32, crc32Loop]
    simp
  simp only [zipChunks, zipCds, zipMetas, zipStreamLen, List.map_cons, List.map_nil,
    List.flatten_cons, List.flatten_nil, chunksOfN, hcrc, Option.map]
  decide

/-- C1 (amended to nonempty archive paths and DOS representable mtimes): for
every set of registered files resolved by the filesystem, with nonempty
archive paths, tar metadata fitting its octal fields, zip sizes within the
non Zip64 bounds and every entry's local mtime decomposition in the DOS
range 1980..2107 (the mtimeOk conjunct of zipOk; outside it the zip
generator raises OverflowError mid stream instead of completing),
content_length equals exactly the number of bytes obtained by exhausting the
generator, for both the tar sender and the zip sender (and both fail
together when a source is missing: the Option values are equal). -/
theorem claim_c1_content_length (files : List (String × String)) (fs : FSys)
    (ents : List (String × String × FileData))
    (hents : entriesOf files fs = some ents)
    (htar : ∀ e ∈ ents, tarOk e.1 e.2.2)
    (hzip : zipOk ents)
    (hne : ∀ e ∈ ents, 1 ≤ e.1.length) :
    TarSender.content_length files fs =
      (TarSender.generator files fs).map (fun chunks => chunks.flatten.length) ∧
    ZipSender.content_length files fs =
      (ZipSender.generator files fs).map (fun chunks => chunks.flatten.length) := by
  constructor
  · rw [TarSender_content_length_eq files fs ents hents,
      TarSender_generator_eq files fs ents hents]
    simp only [Option.map]
    rw [List.length_flatten, tar_total_len ents htar]
  · rw [ZipSender_generator_eq files fs ents hents]
    unfold ZipSender.content_length
    rw [zipLenLoop_eq fs files ents hents]
    simp only [Option.map]
    have hlen : (zipChunks ents ++ zipCds ents 0 ++
        [zip_end_of_central_directory files.length
          (((zipCds ents 0).map List.length).sum) (zipStreamLen ents)]).flatten.length =
        zipTotal ents := by
      rw [List.flatten_append, List.flatten_append]
      simp only [List.length_append, List.flatten_cons, List.flatten_nil,
        List.append_nil]
      rw [zipChunks_flatten, show (zipCds ents 0).flatten = zipCdRegion ents from rfl,
        zip_end_of_central_directory_length]
      exact zip_regions_total ents hne
    rw [hlen]
    rfl

/-- C1 witness at a one entry archive with a 3 byte file, nonempty path and
a valid 1980-01-01 mtime decomposition. -/
theorem claim_c1_content_length_witness :
    TarSender.content_length [("a", "p")]
        [("p", ⟨420, 1000, 1000, 99, 0, 0, 0, 1, 1, 1980, [1, 2, 3]⟩)] =
      (TarSender.generator [("a", "p")]
        [("p", ⟨420, 1000, 1000, 99, 0, 0, 0, 1, 1, 1980, [1, 2, 3]⟩)]).map
        (fun chunks => chunks.flatten.length) ∧
    ZipSender.content_length [("a", "p")]
        [("p", ⟨420, 1000, 1000, 99, 0, 0, 0, 1, 1, 1980, [1, 2, 3]⟩)] =
      (ZipSender.generator [("a", "p")]
        [("p", ⟨420, 1000, 1000, 99, 0, 0, 0, 1, 1, 1980, [1, 2, 3]⟩)]).map
        (fun chunks => chunks.flatten.length) :=
  claim_c1_content_length [("a", "p")]
    [("p", ⟨420, 1000, 1000, 99, 0, 0, 0, 1, 1, 1980, [1, 2, 3]⟩)]
    [("a", "p", ⟨420, 1000, 1000, 99, 0, 0, 0, 1, 1, 1980, [1, 2, 3]⟩)] rfl
    (by decide) (by decide) (by decide)
